import Mathlib

/-!
Shallow embedding of the VRCI (w3pi) ink! contracts: Registry (tier engine),
Portfolio (holdings), Oracle (price feeds) and Staking (rewards/unstaking).
Machine integers (u32/u64/u128) are modelled as Nat with explicit saturating
and checked operations mirroring the Rust source; `ink::storage::Mapping` is
modelled as a function into Option; fallible messages return Except.
Account ids are modelled as Nat (0 plays the role of the zero address).
Cross-contract calls (oracle reads, registry tier reads, token transfers) are
modelled through explicit environment records whose Option/Bool fields encode
success or failure of the call, matching the `try_invoke` result handling in
the source.  Caller authentication (`ensure_owner` / `ensure_role`) is
infrastructure outside the modelled state and is elided, as are events.
-/

namespace VRCI

/-- Maximum value of a u32. -/
def U32MAX : Nat := 4294967295

/-- Maximum value of a u64. -/
def U64MAX : Nat := 18446744073709551615

/-- Maximum value of a u128. -/
def U128MAX : Nat := 340282366920938463463374607431768211455

/-- Saturating u32 addition (`u32::saturating_add`). -/
def satAdd32 (a b : Nat) : Nat := min (a + b) U32MAX

/-- Saturating u64 addition (`u64::saturating_add`). -/
def satAdd64 (a b : Nat) : Nat := min (a + b) U64MAX

/-- Saturating u128 addition (`u128::saturating_add`). -/
def satAdd128 (a b : Nat) : Nat := min (a + b) U128MAX

/-- Saturating u128 multiplication (`u128::saturating_mul`). -/
def satMul128 (a b : Nat) : Nat := min (a * b) U128MAX

/-- Update a function-modelled `Mapping` at one key. -/
def updMap {α : Type} (f : Nat → Option α) (k : Nat) (v : Option α) : Nat → Option α :=
  fun x => if x = k then v else f x

theorem updMap_same {α : Type} (f : Nat → Option α) (k : Nat) (v : Option α) :
    updMap f k v k = v := by
  simp [updMap]

theorem updMap_other {α : Type} (f : Nat → Option α) (k x : Nat) (v : Option α)
    (h : x ≠ k) : updMap f k v x = f x := by
  simp [updMap, h]

/-- Folding saturating u32 addition over a list is the capped plain sum. -/
theorem foldl_satAdd32 (l : List Nat) (a : Nat) (ha : a ≤ U32MAX) :
    l.foldl satAdd32 a = min (a + l.sum) U32MAX := by
  induction l generalizing a with
  | nil => simp [Nat.min_eq_left, ha]
  | cons x xs ih =>
    simp only [List.foldl_cons, List.sum_cons]
    rw [ih (satAdd32 a x) (Nat.min_le_right _ _)]
    unfold satAdd32
    rcases Nat.le_total (a + x) U32MAX with h | h
    · rw [Nat.min_eq_left h, ← Nat.add_assoc]
    · rw [Nat.min_eq_right h]
      have h1 : U32MAX ≤ a + x + xs.sum := Nat.le_trans h (Nat.le_add_right _ _)
      have h2 : U32MAX ≤ U32MAX + xs.sum := Nat.le_add_right _ _
      rw [Nat.min_eq_right h2, Nat.min_eq_right (by omega)]

-- ===== Tier enum (registry/src/lib.rs, shared tier) =====

/-- Tier classification (`Tier` in registry/src/lib.rs). -/
inductive Tier where
  | none
  | tier1
  | tier2
  | tier3
  | tier4
deriving DecidableEq, Repr

-- ===== Staking contract (staking/src/lib.rs) =====

/-- Staking constant `MAX_UNSTAKING_REQUESTS`. -/
def MAX_UNSTAKING_REQUESTS : Nat := 10

/-- Staking constant `REWARDS_RATE_ANNUAL` (source comment: 5% APR, 5% * 10^8). -/
def REWARDS_RATE_ANNUAL : Nat := 5000000000

/-- Staking constant `SECONDS_PER_YEAR`. -/
def SECONDS_PER_YEAR : Nat := 31536000

/-- Staking constant `PERFORMANCE_FEE_PERCENT`. -/
def PERFORMANCE_FEE_PERCENT : Nat := 10

/-- Tier-based unstaking periods in seconds (14/10/7/3 days). -/
def TIER1_UNSTAKING_PERIOD : Nat := 1209600

def TIER2_UNSTAKING_PERIOD : Nat := 864000

def TIER3_UNSTAKING_PERIOD : Nat := 604800

def TIER4_UNSTAKING_PERIOD : Nat := 259200

/-- StakeInfo (staking/src/lib.rs). -/
structure StakeInfo where
  amount : Nat
  staked_at : Nat
  last_claim : Nat
  unstaking_period : Nat
  tier_at_stake : Tier
deriving DecidableEq, Repr

/-- UnstakingRequest (staking/src/unstaking_request.rs). -/
structure UnstakingRequest where
  amount : Nat
  requested_at : Nat
  available_at : Nat
  claimed : Bool
deriving DecidableEq, Repr

/-- Error enum used by the staking contract.  The `shared::errors` module is
not under src/ in this snapshot; the variants are the ones the staking source
matches on and constructs. -/
inductive StakingError where
  | unauthorized
  | contractPaused
  | reentrantCall
  | invalidParameters
  | insufficientBalance
  | transferFailed
  | crossContractCallFailed
deriving DecidableEq, Repr

/-- Storage of the W3piStaking contract (token/registry/owner addresses are
call-routing infrastructure and are carried by the environment instead). -/
structure StakingState where
  paused : Bool
  locked : Bool
  stakes : Nat → Option StakeInfo
  total_staked : Nat
  unstaking_requests : Nat → List UnstakingRequest
  fee_wallet : Nat
  total_collected_fees : Nat

/-- Environment of one staking call: block timestamp, the registry
`get_current_tier` cross-call result (`none` = call failed), and the outcomes
of the two token-contract transfer cross-calls. -/
structure StakingEnv where
  now : Nat
  registry_tier : Option Tier
  transfer_from_caller_ok : Bool
  transfer_from_contract_ok : Bool

/-- Unstaking period per tier (`get_unstaking_period` match). -/
def unstakingPeriodFor : Tier → Nat
  | Tier.tier1 => TIER1_UNSTAKING_PERIOD
  | Tier.tier2 => TIER2_UNSTAKING_PERIOD
  | Tier.tier3 => TIER3_UNSTAKING_PERIOD
  | Tier.tier4 => TIER4_UNSTAKING_PERIOD
  | Tier.none => TIER1_UNSTAKING_PERIOD

/-- Reward computation with performance fee
(`calculate_rewards_with_fee`, staking/src/lib.rs lines 255-290).
Returns (net_reward, fee_amount).  Nat division by zero is 0, which matches
the source's `checked_div(..).unwrap_or(0)`. -/
def calculate_rewards_with_fee (stake : StakeInfo) (now : Nat) : Nat × Nat :=
  let time_elapsed := now - stake.last_claim
  if time_elapsed = 0 then (0, 0)
  else
    let total_reward :=
      satMul128 (satMul128 stake.amount REWARDS_RATE_ANNUAL) time_elapsed
        / SECONDS_PER_YEAR / 100000000
    let fee_amount := satMul128 total_reward PERFORMANCE_FEE_PERCENT / 100
    let net_reward := total_reward - fee_amount
    (net_reward, fee_amount)

/-- The `stake` message body (staking/src/lib.rs lines 314-389): reentrancy
and pause gates, tier lookup, settlement of pending rewards with fee skim for
an existing stake, storage update, then the external `transfer_from` pulling
the deposit from the caller.  An error result models the message returning
`Err`. -/
def stakeRaw (env : StakingEnv) (caller amount : Nat) (s : StakingState) :
    Except StakingError StakingState :=
  if s.locked then Except.error StakingError.reentrantCall
  else if s.paused then Except.error StakingError.contractPaused
  else if amount = 0 then Except.error StakingError.invalidParameters
  else
    match env.registry_tier with
    | Option.none => Except.error StakingError.crossContractCallFailed
    | Option.some current_tier =>
      let unstaking_period := unstakingPeriodFor current_tier
      let settle : Except StakingError (StakeInfo × StakingState) :=
        match s.stakes caller with
        | Option.some existing_stake =>
          let rf := calculate_rewards_with_fee existing_stake env.now
          let net_reward := rf.1
          let fee_amount := rf.2
          if 0 < fee_amount then
            let s1 := { s with
              total_collected_fees := satAdd128 s.total_collected_fees fee_amount }
            if env.transfer_from_contract_ok then
              Except.ok
                ({ amount := satAdd128 (satAdd128 existing_stake.amount amount) net_reward,
                   staked_at := existing_stake.staked_at,
                   last_claim := env.now,
                   unstaking_period := unstaking_period,
                   tier_at_stake := current_tier }, s1)
            else Except.error StakingError.transferFailed
          else
            Except.ok
              ({ amount := satAdd128 (satAdd128 existing_stake.amount amount) net_reward,
                 staked_at := existing_stake.staked_at,
                 last_claim := env.now,
                 unstaking_period := unstaking_period,
                 tier_at_stake := current_tier }, s)
        | Option.none =>
          Except.ok
            ({ amount := amount,
               staked_at := env.now,
               last_claim := env.now,
               unstaking_period := unstaking_period,
               tier_at_stake := current_tier }, s)
      match settle with
      | Except.error e => Except.error e
      | Except.ok (stake_info, s2) =>
        let s3 := { s2 with
          stakes := updMap s2.stakes caller (Option.some stake_info),
          total_staked := satAdd128 s2.total_staked amount }
        if env.transfer_from_caller_ok then Except.ok s3
        else Except.error StakingError.transferFailed

/-- Persisted state of one `stake` call: ink! messages that return `Err`
revert every storage write of the call, so the pre-call state survives. -/
def stakeMessage (env : StakingEnv) (caller amount : Nat) (s : StakingState) :
    StakingState :=
  match stakeRaw env caller amount s with
  | Except.ok s2 => s2
  | Except.error _ => s

/-- C2: the claim expects a 5% annual rate (gross 5_000_000 on a stake of
100_000_000 over exactly SECONDS_PER_YEAR, fee 500_000, net 4_500_000), and
the source's own comment on REWARDS_RATE_ANNUAL says "5% APR (5% * 10^8)",
i.e. 5_000_000; but the constant is 5_000_000_000, so with the 10^8 divisor
`calculate_rewards_with_fee` computes a gross reward of 5_000_000_000
(fee 500_000_000, net 4_500_000_000) — one thousand times the documented
rate.  This theorem evaluates the embedded source at the claim's input. -/
theorem c2_reward_rate_code_bug :
    calculate_rewards_with_fee
        { amount := 100000000, staked_at := 0, last_claim := 0,
          unstaking_period := TIER1_UNSTAKING_PERIOD, tier_at_stake := Tier.tier1 }
        SECONDS_PER_YEAR
      = (4500000000, 500000000) := by
  decide

/-- C3: if the external `transfer_from` pulling the deposit from the caller
fails, the whole `stake` operation returns an error, and (because an ink!
message returning `Err` reverts its storage writes) the persisted state —
in particular the caller's StakeInfo entry and `total_staked` — is exactly
the pre-call state. -/
theorem c3_stake_transfer_failure_atomic (env : StakingEnv) (caller amount : Nat)
    (s : StakingState) (h : env.transfer_from_caller_ok = false) :
    (∃ e, stakeRaw env caller amount s = Except.error e) ∧
      stakeMessage env caller amount s = s ∧
      (stakeMessage env caller amount s).stakes caller = s.stakes caller ∧
      (stakeMessage env caller amount s).total_staked = s.total_staked := by
  have hraw : ∃ e, stakeRaw env caller amount s = Except.error e := by
    unfold stakeRaw
    simp only [h]
    repeat' split
    all_goals simp_all
  obtain ⟨e, he⟩ := hraw
  have hmsg : stakeMessage env caller amount s = s := by
    unfold stakeMessage
    rw [he]
  exact ⟨⟨e, he⟩, hmsg, by rw [hmsg], by rw [hmsg]⟩

/-- Environment for the C3 witness: registry call succeeds, fee transfer
succeeds, but the deposit transfer from the caller fails. -/
def c3env : StakingEnv :=
  { now := 100, registry_tier := Option.some Tier.tier1,
    transfer_from_caller_ok := false, transfer_from_contract_ok := true }

/-- Fresh staking state for the C3 witness. -/
def c3state : StakingState :=
  { paused := false, locked := false, stakes := fun _ => Option.none,
    total_staked := 0, unstaking_requests := fun _ => [],
    fee_wallet := 9, total_collected_fees := 0 }

/-- Witness for C3 at a concrete failing transfer. -/
theorem c3_stake_transfer_failure_atomic_witness :
    (∃ e, stakeRaw c3env 5 100 c3state = Except.error e) ∧
      stakeMessage c3env 5 100 c3state = c3state ∧
      (stakeMessage c3env 5 100 c3state).stakes 5 = c3state.stakes 5 ∧
      (stakeMessage c3env 5 100 c3state).total_staked = c3state.total_staked :=
  c3_stake_transfer_failure_atomic c3env 5 100 c3state rfl

-- ===== Oracle contract (oracle/src/lib.rs) =====

/-- TokenPriceData (oracle/src/lib.rs). -/
structure TokenPriceData where
  price : Nat
  market_cap : Nat
  volume_24h : Nat
  timestamp : Nat
deriving DecidableEq, Repr

/-- ValidationConfig (oracle/src/lib.rs). -/
structure ValidationConfig where
  max_deviation_bp : Nat
  staleness_threshold : Nat
  min_update_interval : Nat
deriving DecidableEq, Repr

/-- Oracle storage (authorization mapping and owner elided as
infrastructure). -/
structure OracleState where
  token_data : Nat → Option TokenPriceData
  validation_config : ValidationConfig
  paused : Bool

/-- Oracle `get_price` (oracle/src/lib.rs lines 363-365). -/
def get_price (s : OracleState) (token : Nat) : Option Nat :=
  (s.token_data token).map (fun data => data.price)

/-- Oracle `get_market_cap` (oracle/src/lib.rs lines 369-371). -/
def get_market_cap (s : OracleState) (token : Nat) : Option Nat :=
  (s.token_data token).map (fun data => data.market_cap)

/-- Oracle `get_market_volume` (oracle/src/lib.rs lines 375-377). -/
def get_market_volume (s : OracleState) (token : Nat) : Option Nat :=
  (s.token_data token).map (fun data => data.volume_24h)

/-- Staleness threshold in milliseconds: `staleness_threshold.checked_mul(1000)
.unwrap_or(u64::MAX)` (oracle/src/lib.rs lines 386-390). -/
def stalenessThresholdMs (s : OracleState) : Nat :=
  if s.validation_config.staleness_threshold * 1000 ≤ U64MAX then
    s.validation_config.staleness_threshold * 1000
  else U64MAX

/-- Oracle `is_price_stale` (oracle/src/lib.rs lines 381-396): absent data is
stale; present data is stale when `now.saturating_sub(timestamp)` exceeds the
threshold in milliseconds. -/
def is_price_stale (s : OracleState) (now token : Nat) : Bool :=
  match s.token_data token with
  | Option.some data => decide (stalenessThresholdMs s < now - data.timestamp)
  | Option.none => true

/-- Oracle state for the C8 counterexample: token 1 has data whose timestamp
is stale by policy at time 3_600_001 under the default 3600 s threshold. -/
def c8state : OracleState :=
  { token_data := fun t =>
      if t = 1 then
        Option.some { price := 7, market_cap := 5, volume_24h := 3, timestamp := 0 }
      else Option.none,
    validation_config :=
      { max_deviation_bp := 2000, staleness_threshold := 3600, min_update_interval := 60 },
    paused := false }

/-- C8 counterexample: at time 3_600_001 the stored data of token 1 is stale
by policy (`is_price_stale` is true), yet `get_price`, `get_market_cap` and
`get_market_volume` still return Some — the claim says a stale token's reads
return None. -/
theorem c8_stale_reads_counterexample :
    is_price_stale c8state 3600001 1 = true ∧
      get_price c8state 1 = Option.some 7 ∧
      get_market_cap c8state 1 = Option.some 5 ∧
      get_market_volume c8state 1 = Option.some 3 := by
  refine ⟨?_, rfl, rfl, rfl⟩
  decide

/-- C8 amended: `get_price`, `get_market_cap` and `get_market_volume` return
None exactly when the token has no stored data; staleness never makes them
return None.  Staleness is reported only by the advisory `is_price_stale`,
which holds iff the data is absent or `now - last_update_timestamp` (u64
saturating) exceeds `staleness_threshold × 1000` milliseconds (capped at
u64::MAX on overflow). -/
theorem c8_reads_absence_only (s : OracleState) (token : Nat) :
    (get_price s token = Option.none ↔ s.token_data token = Option.none) ∧
      (get_market_cap s token = Option.none ↔ s.token_data token = Option.none) ∧
      (get_market_volume s token = Option.none ↔ s.token_data token = Option.none) ∧
      (∀ now, is_price_stale s now token = true ↔
        (s.token_data token = Option.none ∨
          ∃ data, s.token_data token = Option.some data ∧
            stalenessThresholdMs s < now - data.timestamp)) := by
  refine ⟨?_, ?_, ?_, fun now => ?_⟩ <;>
    cases h : s.token_data token <;>
      simp [get_price, get_market_cap, get_market_volume, is_price_stale, h]

-- ===== Shared error enum (shared/src/lib.rs) =====

/-- Error enum shared by registry and portfolio (shared/src/lib.rs). -/
inductive Error where
  | unauthorized
  | unauthorizedRole
  | tokenNotFound
  | tokenAlreadyExists
  | invalidTokenContract
  | zeroAddress
  | invalidWeight
  | invalidTier
  | invalidParameter
  | oracleCallFailed
  | insufficientBalance
deriving DecidableEq, Repr

-- ===== Portfolio contract (portfolio/src/lib.rs), holdings subsystem =====

/-- TokenHolding (portfolio/src/lib.rs). -/
structure TokenHolding where
  amount : Nat
  target_weight_bp : Nat
  last_rebalance : Nat
  fees_collected : Nat
deriving DecidableEq, Repr

/-- Holdings-subsystem projection of the Portfolio storage.  The omitted
fields (index cache, fee system, contract references, liquidity settings)
are never read or written by the holdings operations below except through
`trigger_index_update`, which per source lines 1206-1235 and 1430-1435
mutates only the cached `current_index_value` / `last_index_update`. -/
structure PortfolioState where
  holdings : Nat → Option TokenHolding
  held_token_ids : List Nat
  total_tokens_held : Nat
  max_tokens : Nat
  emergency_paused : Bool

/-- Best-effort index recompute after a holdings mutation
(`trigger_index_update`, portfolio/src/lib.rs lines 1430-1435).  It touches
only the index-cache fields, which are outside this holdings projection, so
here it is the identity on the modelled fields. -/
def trigger_index_update (s : PortfolioState) : PortfolioState := s

/-- Portfolio `calculate_total_target_weight` (portfolio/src/lib.rs lines
1106-1116): saturating u32 sum of the stored weights over `held_token_ids`. -/
def calculate_total_target_weight (s : PortfolioState) : Nat :=
  s.held_token_ids.foldl
    (fun total_weight token_id =>
      match s.holdings token_id with
      | Option.some holding => satAdd32 total_weight holding.target_weight_bp
      | Option.none => total_weight)
    0

/-- Portfolio `add_token_holding` (portfolio/src/lib.rs lines 639-710). -/
def add_token_holding (now : Nat) (token_id amount target_weight_bp : Nat)
    (s : PortfolioState) : Except Error PortfolioState :=
  if s.emergency_paused then Except.error Error.invalidParameter
  else if amount = 0 then Except.error Error.invalidParameter
  else if 10000 < target_weight_bp then Except.error Error.invalidParameter
  else if (s.holdings token_id).isSome then Except.error Error.tokenAlreadyExists
  else if s.max_tokens ≤ s.total_tokens_held then Except.error Error.invalidParameter
  else
    let current_weight := calculate_total_target_weight s
    let total_weight := satAdd32 current_weight target_weight_bp
    if 10000 < total_weight then Except.error Error.invalidParameter
    else
      let holding : TokenHolding :=
        { amount := amount, target_weight_bp := target_weight_bp,
          last_rebalance := now, fees_collected := 0 }
      Except.ok (trigger_index_update
        { s with
          holdings := updMap s.holdings token_id (Option.some holding),
          held_token_ids := s.held_token_ids ++ [token_id],
          total_tokens_held := satAdd32 s.total_tokens_held 1 })

/-- Portfolio `update_token_holding` (portfolio/src/lib.rs lines 714-791). -/
def update_token_holding (now : Nat) (token_id new_amount new_target_weight_bp : Nat)
    (s : PortfolioState) : Except Error PortfolioState :=
  if s.emergency_paused then Except.error Error.invalidParameter
  else if 10000 < new_target_weight_bp then Except.error Error.invalidParameter
  else
    match s.holdings token_id with
    | Option.none => Except.error Error.tokenNotFound
    | Option.some holding =>
      let current_total_weight := calculate_total_target_weight s
      let weight_change :=
        if holding.target_weight_bp ≤ new_target_weight_bp then
          new_target_weight_bp - holding.target_weight_bp
        else holding.target_weight_bp - new_target_weight_bp
      let new_total_weight :=
        if holding.target_weight_bp ≤ new_target_weight_bp then
          satAdd32 current_total_weight weight_change
        else current_total_weight - weight_change
      if 10000 < new_total_weight then Except.error Error.invalidParameter
      else
        Except.ok (trigger_index_update
          { s with
            holdings := updMap s.holdings token_id (Option.some
              { holding with
                amount := new_amount,
                target_weight_bp := new_target_weight_bp,
                last_rebalance := now }) })

/-- Portfolio `remove_token_holding` (portfolio/src/lib.rs lines 795-829).
`Vec::remove` at the first found position is `List.erase`. -/
def remove_token_holding (token_id : Nat) (s : PortfolioState) :
    Except Error PortfolioState :=
  if s.emergency_paused then Except.error Error.invalidParameter
  else
    match s.holdings token_id with
    | Option.none => Except.error Error.tokenNotFound
    | Option.some _ =>
      Except.ok (trigger_index_update
        { s with
          holdings := updMap s.holdings token_id Option.none,
          held_token_ids := s.held_token_ids.erase token_id,
          total_tokens_held := s.total_tokens_held - 1 })

/-- Validation loop of `add_multiple_holdings` (portfolio/src/lib.rs lines
957-975): rejects zero amounts, weights over 10000, and ids already stored in
the portfolio — but checks nothing against the other batch entries — while
accumulating the batch's total weight. -/
def validate_batch (s : PortfolioState) :
    List (Nat × Nat × Nat) → Nat → Except Error Nat
  | [], total_new_weight => Except.ok total_new_weight
  | (token_id, amount, target_weight_bp) :: rest, total_new_weight =>
    if amount = 0 ∨ 10000 < target_weight_bp then Except.error Error.invalidParameter
    else if (s.holdings token_id).isSome then Except.error Error.tokenAlreadyExists
    else validate_batch s rest (satAdd32 total_new_weight target_weight_bp)

/-- Portfolio `add_multiple_holdings` (portfolio/src/lib.rs lines 935-1015). -/
def add_multiple_holdings (now : Nat) (holdings_data : List (Nat × Nat × Nat))
    (s : PortfolioState) : Except Error (Nat × PortfolioState) :=
  if s.emergency_paused then Except.error Error.invalidParameter
  else if holdings_data.isEmpty then Except.error Error.invalidParameter
  else if s.max_tokens < satAdd32 s.total_tokens_held holdings_data.length then
    Except.error Error.invalidParameter
  else
    match validate_batch s holdings_data 0 with
    | Except.error e => Except.error e
    | Except.ok total_new_weight =>
      if 10000 < satAdd32 (calculate_total_target_weight s) total_new_weight then
        Except.error Error.invalidParameter
      else
        let final := holdings_data.foldl
          (fun (acc : Nat × PortfolioState) entry =>
            let (added_count, st) := acc
            let (token_id, amount, target_weight_bp) := entry
            let holding : TokenHolding :=
              { amount := amount, target_weight_bp := target_weight_bp,
                last_rebalance := now, fees_collected := 0 }
            (satAdd32 added_count 1,
             { st with
               holdings := updMap st.holdings token_id (Option.some holding),
               held_token_ids := st.held_token_ids ++ [token_id],
               total_tokens_held := satAdd32 st.total_tokens_held 1 }))
          (0, s)
        Except.ok final

/-- Loop body of `update_multiple_amounts` (portfolio/src/lib.rs lines
1033-1053): a stored holding gets its amount and last_rebalance updated and
is counted; an unknown id leaves the accumulator untouched. -/
def uma_step (now : Nat) (acc : Nat × PortfolioState) (entry : Nat × Nat) :
    Nat × PortfolioState :=
  match acc.2.holdings entry.1 with
  | Option.some holding =>
    (satAdd32 acc.1 1,
     { acc.2 with
       holdings := updMap acc.2.holdings entry.1 (Option.some
         { holding with amount := entry.2, last_rebalance := now }) })
  | Option.none => acc

/-- Portfolio `update_multiple_amounts` (portfolio/src/lib.rs lines
1019-1056): entries whose id has no stored holding are skipped silently. -/
def update_multiple_amounts (now : Nat) (updates : List (Nat × Nat))
    (s : PortfolioState) : Except Error (Nat × PortfolioState) :=
  if s.emergency_paused then Except.error Error.invalidParameter
  else if updates.isEmpty then Except.error Error.invalidParameter
  else Except.ok (updates.foldl (uma_step now) (0, s))

/-- Portfolio state produced by the constructor (portfolio/src/lib.rs lines
313-370), restricted to the holdings projection. -/
def portfolioInit : PortfolioState :=
  { holdings := fun _ => Option.none, held_token_ids := [],
    total_tokens_held := 0, max_tokens := 50, emergency_paused := false }

/-- C9: `add_multiple_holdings` validates each entry only against stored
holdings, so a batch repeating one fresh token id succeeds: from the
constructor state, the batch [(1,100,3000),(1,200,4000)] returns Ok(2),
pushes id 1 into `held_token_ids` twice, raises `total_tokens_held` to 2,
yet only one distinct holding (id 1) is stored — `total_tokens_held` exceeds
the number of distinct stored holdings. -/
theorem c9_duplicate_batch_entries :
    (add_multiple_holdings 77 [(1, 100, 3000), (1, 200, 4000)] portfolioInit).map
        (fun r => (r.1, r.2.held_token_ids, r.2.total_tokens_held,
          (r.2.holdings 1).isSome, (r.2.holdings 2).isSome,
          r.2.held_token_ids.dedup.length))
      = Except.ok (2, [1, 1], 2, true, false, 1) := by
  rfl

-- C10 helper lemmas about the update_multiple_amounts loop.

theorem uma_fold_isSome (now : Nat) (l : List (Nat × Nat))
    (acc : Nat × PortfolioState) (id : Nat) :
    (((l.foldl (uma_step now) acc).2.holdings id).isSome) =
      ((acc.2.holdings id).isSome) := by
  induction l generalizing acc with
  | nil => rfl
  | cons e rest ih =>
    rw [List.foldl_cons, ih]
    unfold uma_step
    cases h : acc.2.holdings e.1 with
    | some holding =>
      simp only [updMap]
      by_cases hid : id = e.1 <;> simp [hid, h]
    | none => rfl

theorem uma_fold_untouched (now : Nat) (l : List (Nat × Nat))
    (acc : Nat × PortfolioState) (id : Nat) (h : id ∉ l.map Prod.fst) :
    ((l.foldl (uma_step now) acc).2.holdings id) = acc.2.holdings id := by
  induction l generalizing acc with
  | nil => rfl
  | cons e rest ih =>
    simp only [List.map_cons, List.mem_cons] at h
    push_neg at h
    rw [List.foldl_cons, ih _ h.2]
    unfold uma_step
    cases hh : acc.2.holdings e.1 with
    | some holding => simp [updMap, h.1]
    | none => rfl

theorem uma_fold_count (now : Nat) (l : List (Nat × Nat))
    (acc : Nat × PortfolioState) (s : PortfolioState)
    (hdom : ∀ id, (acc.2.holdings id).isSome = (s.holdings id).isSome)
    (hbound : acc.1 + l.countP (fun e => (s.holdings e.1).isSome) ≤ U32MAX) :
    (l.foldl (uma_step now) acc).1 =
      acc.1 + l.countP (fun e => (s.holdings e.1).isSome) := by
  induction l generalizing acc with
  | nil => simp
  | cons e rest ih =>
    rw [List.foldl_cons]
    by_cases he : (s.holdings e.1).isSome
    · have hacc : (acc.2.holdings e.1).isSome := by rw [hdom]; exact he
      obtain ⟨holding, hh⟩ := Option.isSome_iff_exists.mp hacc
      have hstep : uma_step now acc e =
          (satAdd32 acc.1 1,
           { acc.2 with
             holdings := updMap acc.2.holdings e.1 (Option.some
               { holding with amount := e.2, last_rebalance := now }) }) := by
        unfold uma_step
        rw [hh]
      have hcnt : (e :: rest).countP (fun x => (s.holdings x.1).isSome) =
          rest.countP (fun x => (s.holdings x.1).isSome) + 1 := by
        simp [List.countP_cons, he]
      have hsat : satAdd32 acc.1 1 = acc.1 + 1 := by
        unfold satAdd32
        rw [hcnt] at hbound
        exact Nat.min_eq_left (by omega)
      have hdom2 : ∀ j,
          (((uma_step now acc e).2).holdings j).isSome = (s.holdings j).isSome := by
        intro j
        rw [hstep]
        by_cases hj : j = e.1
        · rw [show (({ acc.2 with
                holdings := updMap acc.2.holdings e.1 (Option.some
                  { holding with amount := e.2, last_rebalance := now }) } :
                PortfolioState).holdings j) =
              Option.some { holding with amount := e.2, last_rebalance := now } from
            by rw [hj]; exact updMap_same _ _ _]
          rw [hj]
          simp [he]
        · rw [show (({ acc.2 with
                holdings := updMap acc.2.holdings e.1 (Option.some
                  { holding with amount := e.2, last_rebalance := now }) } :
                PortfolioState).holdings j) = acc.2.holdings j from
            updMap_other _ _ _ _ hj]
          exact hdom j
      have hbound2 : (uma_step now acc e).1 +
          rest.countP (fun x => (s.holdings x.1).isSome) ≤ U32MAX := by
        rw [hstep]
        simp only [hsat]
        rw [hcnt] at hbound
        omega
      rw [ih _ hdom2 hbound2, hstep]
      simp only [hsat, hcnt]
      omega
    · have hacc : acc.2.holdings e.1 = Option.none := by
        have h1 := hdom e.1
        simp only [he] at h1
        exact Option.not_isSome_iff_eq_none.mp (by simp [h1])
      have hstep : uma_step now acc e = acc := by
        unfold uma_step
        rw [hacc]
      have hcnt : (e :: rest).countP (fun x => (s.holdings x.1).isSome) =
          rest.countP (fun x => (s.holdings x.1).isSome) := by
        simp [List.countP_cons, he]
      rw [hstep, ih _ hdom (by rw [hcnt] at hbound; exact hbound), hcnt]

theorem uma_fold_value (now : Nat) (l : List (Nat × Nat))
    (acc : Nat × PortfolioState) (s : PortfolioState) (id amt : Nat)
    (h : TokenHolding) (hmem : (id, amt) ∈ l) (hnd : (l.map Prod.fst).Nodup)
    (hacc : acc.2.holdings id = s.holdings id)
    (hs : s.holdings id = Option.some h) :
    (l.foldl (uma_step now) acc).2.holdings id =
      Option.some { h with amount := amt, last_rebalance := now } := by
  induction l generalizing acc with
  | nil => cases hmem
  | cons e rest ih =>
    simp only [List.map_cons, List.nodup_cons] at hnd
    rw [List.foldl_cons]
    rcases List.mem_cons.mp hmem with heq | htail
    · subst heq
      have hstep : (uma_step now acc (id, amt)).2.holdings id =
          Option.some { h with amount := amt, last_rebalance := now } := by
        unfold uma_step
        simp only [hacc, hs]
        simp [updMap]
      have hid : id ∉ rest.map Prod.fst := hnd.1
      rw [uma_fold_untouched now rest _ id hid, hstep]
    · have hne : id ≠ e.1 := by
        intro hc
        exact hnd.1 (hc ▸ (List.mem_map.mpr ⟨(id, amt), htail, rfl⟩))
      have hstep : (uma_step now acc e).2.holdings id = acc.2.holdings id := by
        unfold uma_step
        cases hh : acc.2.holdings e.1 with
        | some holding =>
          simp only
          exact updMap_other _ _ _ _ hne
        | none => rfl
      exact ih _ htail hnd.2 (hstep.trans hacc)

theorem uma_fold_id_of_none (now : Nat) (l : List (Nat × Nat))
    (acc : Nat × PortfolioState)
    (hall : ∀ e ∈ l, acc.2.holdings e.1 = Option.none) :
    l.foldl (uma_step now) acc = acc := by
  induction l with
  | nil => rfl
  | cons e rest ih =>
    have hstep : uma_step now acc e = acc := by
      unfold uma_step
      rw [hall e (List.mem_cons_self e rest)]
    rw [List.foldl_cons, hstep]
    exact ih (fun x hx => hall x (List.mem_cons_of_mem e hx))

/-- C10: for every non-empty update list (portfolio not emergency-paused),
`update_multiple_amounts` succeeds; entries whose id has no stored holding
are silently skipped, each stored id's amount and last_rebalance are
updated, and the returned count is the number of entries whose id had a
stored holding — in particular a list of only unknown ids returns Ok(0) and
leaves the state unchanged. -/
theorem c10_update_multiple_amounts (now : Nat) (updates : List (Nat × Nat))
    (s : PortfolioState) (hp : s.emergency_paused = false)
    (hne : updates ≠ []) (hlen : updates.length ≤ U32MAX) :
    ∃ s2,
      update_multiple_amounts now updates s =
        Except.ok (updates.countP (fun e => (s.holdings e.1).isSome), s2) ∧
      (∀ id, (s2.holdings id).isSome = (s.holdings id).isSome) ∧
      (∀ id, id ∉ updates.map Prod.fst → s2.holdings id = s.holdings id) ∧
      ((updates.map Prod.fst).Nodup →
        ∀ id amt h, (id, amt) ∈ updates → s.holdings id = Option.some h →
          s2.holdings id = Option.some { h with amount := amt, last_rebalance := now }) ∧
      ((∀ e ∈ updates, s.holdings e.1 = Option.none) →
        update_multiple_amounts now updates s = Except.ok (0, s)) := by
  refine ⟨(updates.foldl (uma_step now) (0, s)).2, ?_, ?_, ?_, ?_, ?_⟩
  · unfold update_multiple_amounts
    rw [if_neg (by simp [hp]), if_neg (by simp [List.isEmpty_iff, hne])]
    have hcount := uma_fold_count now updates (0, s) s (fun _ => rfl)
      (by
        simp only [Nat.zero_add]
        exact Nat.le_trans (List.countP_le_length _) hlen)
    rw [show (updates.countP fun e => (s.holdings e.1).isSome) =
        (updates.foldl (uma_step now) (0, s)).1 from by rw [hcount]; simp]
  · intro id
    exact uma_fold_isSome now updates (0, s) id
  · intro id hid
    exact uma_fold_untouched now updates (0, s) id hid
  · intro hnd id amt h hmem hs
    exact uma_fold_value now updates (0, s) s id amt h hmem hnd rfl hs
  · intro hall
    unfold update_multiple_amounts
    rw [if_neg (by simp [hp]), if_neg (by simp [List.isEmpty_iff, hne])]
    rw [uma_fold_id_of_none now updates (0, s) hall]

/-- Witness for C10: a concrete two-entry list in which one id is stored and
one is unknown. -/
def c10state : PortfolioState :=
  { holdings := fun id =>
      if id = 3 then
        Option.some { amount := 40, target_weight_bp := 500, last_rebalance := 0,
                      fees_collected := 0 }
      else Option.none,
    held_token_ids := [3], total_tokens_held := 1, max_tokens := 50,
    emergency_paused := false }

/-- Witness for C10 applied at a concrete state and update list. -/
theorem c10_update_multiple_amounts_witness :
    ∃ s2,
      update_multiple_amounts 9 [(3, 55), (4, 66)] c10state =
        Except.ok ([(3, 55), (4, 66)].countP
          (fun e => (c10state.holdings e.1).isSome), s2) ∧
      (∀ id, (s2.holdings id).isSome = (c10state.holdings id).isSome) ∧
      (∀ id, id ∉ [(3, 55), (4, 66)].map Prod.fst →
        s2.holdings id = c10state.holdings id) ∧
      (([(3, 55), (4, 66)].map Prod.fst).Nodup →
        ∀ id amt h, (id, amt) ∈ [(3, 55), (4, 66)] →
          c10state.holdings id = Option.some h →
          s2.holdings id = Option.some { h with amount := amt, last_rebalance := 9 }) ∧
      ((∀ e ∈ [(3, 55), (4, 66)], c10state.holdings e.1 = Option.none) →
        update_multiple_amounts 9 [(3, 55), (4, 66)] c10state = Except.ok (0, c10state)) :=
  c10_update_multiple_amounts 9 [(3, 55), (4, 66)] c10state rfl (by decide) (by decide)

-- ===== C7: weight-sum invariant machinery =====

/-- Stored target weight of one id (0 when the id has no holding). -/
def holdingWeight (f : Nat → Option TokenHolding) (id : Nat) : Nat :=
  match f id with
  | Option.some holding => holding.target_weight_bp
  | Option.none => 0

/-- Exact (unsaturated) sum of stored target weights over `held_token_ids`. -/
def weightSum (s : PortfolioState) : Nat :=
  (s.held_token_ids.map (holdingWeight s.holdings)).sum

theorem calc_fold_eq (f : Nat → Option TokenHolding) (l : List Nat) (a : Nat)
    (ha : a ≤ U32MAX) :
    (l.foldl
      (fun total_weight token_id =>
        match f token_id with
        | Option.some holding => satAdd32 total_weight holding.target_weight_bp
        | Option.none => total_weight) a) =
      (l.map (holdingWeight f)).foldl satAdd32 a := by
  induction l generalizing a with
  | nil => rfl
  | cons id rest ih =>
    simp only [List.foldl_cons, List.map_cons]
    cases h : f id with
    | some holding =>
      rw [show holdingWeight f id = holding.target_weight_bp from by
        unfold holdingWeight; rw [h]]
      exact ih _ (Nat.min_le_right _ _)
    | none =>
      rw [show holdingWeight f id = 0 from by unfold holdingWeight; rw [h]]
      rw [show satAdd32 a 0 = a from by unfold satAdd32; simpa using Nat.min_eq_left ha]
      exact ih _ ha

/-- The source's saturating total weight is the capped exact sum. -/
theorem calc_total_eq (s : PortfolioState) :
    calculate_total_target_weight s = min (weightSum s) U32MAX := by
  unfold calculate_total_target_weight weightSum
  rw [calc_fold_eq s.holdings s.held_token_ids 0 (Nat.zero_le _),
    foldl_satAdd32 _ 0 (Nat.zero_le _), Nat.zero_add]

theorem map_holdingWeight_congr (f g : Nat → Option TokenHolding) (l : List Nat)
    (h : ∀ id ∈ l, f id = g id) :
    l.map (holdingWeight f) = l.map (holdingWeight g) := by
  induction l with
  | nil => rfl
  | cons id rest ih =>
    simp only [List.map_cons]
    rw [show holdingWeight f id = holdingWeight g id from by
      unfold holdingWeight; rw [h id (List.mem_cons_self id rest)]]
    rw [ih (fun x hx => h x (List.mem_cons_of_mem id hx))]

theorem sum_update_holding (f : Nat → Option TokenHolding) (l : List Nat)
    (tid : Nat) (oldh newh : TokenHolding) (hnd : l.Nodup) (hmem : tid ∈ l)
    (hf : f tid = Option.some oldh) :
    (l.map (holdingWeight (updMap f tid (Option.some newh)))).sum
        + oldh.target_weight_bp =
      (l.map (holdingWeight f)).sum + newh.target_weight_bp := by
  induction l with
  | nil => cases hmem
  | cons a rest ih =>
    rw [List.nodup_cons] at hnd
    simp only [List.map_cons, List.sum_cons]
    rcases List.mem_cons.mp hmem with heq | htail
    · subst heq
      rw [show holdingWeight (updMap f tid (Option.some newh)) tid =
          newh.target_weight_bp from by
        unfold holdingWeight; rw [updMap_same]]
      rw [show holdingWeight f tid = oldh.target_weight_bp from by
        unfold holdingWeight; rw [hf]]
      rw [show rest.map (holdingWeight (updMap f tid (Option.some newh))) =
          rest.map (holdingWeight f) from
        map_holdingWeight_congr _ _ rest (fun x hx =>
          updMap_other f tid x _ (fun hc => hnd.1 (hc ▸ hx)))]
      omega
    · have hne : a ≠ tid := fun hc => hnd.1 (hc ▸ htail)
      rw [show holdingWeight (updMap f tid (Option.some newh)) a =
          holdingWeight f a from by
        unfold holdingWeight; rw [updMap_other f tid a _ hne]]
      have := ih hnd.2 htail
      omega

/-- Invariant carried by the holdings subsystem: `held_token_ids` lists the
domain of the holdings map without duplicates, and the exact weight sum is
within 10000 bp. -/
def PortfolioInv (s : PortfolioState) : Prop :=
  s.held_token_ids.Nodup ∧
    (∀ id, id ∈ s.held_token_ids ↔ (s.holdings id).isSome) ∧
    weightSum s ≤ 10000

theorem portfolioInit_inv : PortfolioInv portfolioInit := by
  refine ⟨List.nodup_nil, fun id => ?_, ?_⟩ <;> simp [portfolioInit, weightSum]

theorem add_holding_preserves_inv (now tid amt w : Nat) (s s2 : PortfolioState)
    (hinv : PortfolioInv s)
    (hok : add_token_holding now tid amt w s = Except.ok s2) :
    PortfolioInv s2 ∧ weightSum s2 = weightSum s + w := by
  obtain ⟨hnd, hdom, hws⟩ := hinv
  unfold add_token_holding trigger_index_update at hok
  split at hok; · exact absurd hok (by simp)
  split at hok; · exact absurd hok (by simp)
  split at hok; · exact absurd hok (by simp)
  split at hok; · exact absurd hok (by simp)
  split at hok; · exact absurd hok (by simp)
  next hpause hamt hwbig hnotheld hroom =>
  dsimp only at hok
  split at hok; · exact absurd hok (by simp)
  next hcheck =>
  injection hok with hok
  subst hok
  have htid : tid ∉ s.held_token_ids := by
    intro hmem
    exact hnotheld ((hdom tid).mp hmem)
  have hcongr : s.held_token_ids.map (holdingWeight (updMap s.holdings tid
      (Option.some
        { amount := amt, target_weight_bp := w, last_rebalance := now, fees_collected := 0 })))
      = s.held_token_ids.map (holdingWeight s.holdings) :=
    map_holdingWeight_congr _ _ _ (fun x hx =>
      updMap_other s.holdings tid x _ (fun hc => htid (hc ▸ hx)))
  have htail : ([tid].map (holdingWeight (updMap s.holdings tid
      (Option.some
        { amount := amt, target_weight_bp := w, last_rebalance := now, fees_collected := 0 })))).sum
      = w := by
    simp only [List.map_cons, List.map_nil, List.sum_cons, List.sum_nil]
    unfold holdingWeight
    rw [updMap_same]
    simp
  have hsum2 : weightSum
      { s with
        holdings := updMap s.holdings tid (Option.some
          { amount := amt, target_weight_bp := w, last_rebalance := now,
            fees_collected := 0 }),
        held_token_ids := s.held_token_ids ++ [tid],
        total_tokens_held := satAdd32 s.total_tokens_held 1 } =
      weightSum s + w := by
    unfold weightSum
    simp only [List.map_append, List.sum_append]
    rw [hcongr, htail]
  have hbound : weightSum s + w ≤ 10000 := by
    have hmin : min (weightSum s) U32MAX = weightSum s :=
      Nat.min_eq_left (by unfold U32MAX; omega)
    rw [calc_total_eq, hmin] at hcheck
    unfold satAdd32 at hcheck
    push_neg at hcheck
    rcases Nat.le_total (weightSum s + w) U32MAX with hc | hc
    · rw [Nat.min_eq_left hc] at hcheck
      exact hcheck
    · rw [Nat.min_eq_right hc] at hcheck
      unfold U32MAX at hcheck
      omega
  have hother : ∀ id, id ≠ tid → updMap s.holdings tid (Option.some
      { amount := amt, target_weight_bp := w, last_rebalance := now, fees_collected := 0 }) id
      = s.holdings id :=
    fun id hid => updMap_other _ _ _ _ hid
  refine ⟨⟨?_, ?_, ?_⟩, hsum2⟩
  · simpa [List.nodup_append] using ⟨hnd, by simpa using htid⟩
  · intro id
    by_cases hid : id = tid
    · subst hid
      simp [updMap_same]
    · simp only [List.mem_append, List.mem_singleton, hid, or_false]
      rw [hother id hid]
      exact hdom id
  · rw [hsum2]
    exact hbound

theorem update_holding_preserves_inv (now tid amt w : Nat) (s s2 : PortfolioState)
    (hinv : PortfolioInv s)
    (hok : update_token_holding now tid amt w s = Except.ok s2) :
    PortfolioInv s2 ∧ ∀ oldh, s.holdings tid = Option.some oldh →
      weightSum s2 + oldh.target_weight_bp = weightSum s + w := by
  obtain ⟨hnd, hdom, hws⟩ := hinv
  unfold update_token_holding trigger_index_update at hok
  split at hok; · exact absurd hok (by simp)
  split at hok; · exact absurd hok (by simp)
  next hpause hwbig =>
  split at hok
  · exact absurd hok (by simp)
  next holding hsome =>
  dsimp only at hok
  have hmem : tid ∈ s.held_token_ids := (hdom tid).mpr (by simp [hsome])
  have hsum2 := sum_update_holding s.holdings s.held_token_ids tid holding
    { holding with amount := amt, target_weight_bp := w, last_rebalance := now }
    hnd hmem hsome
  have hcalc : calculate_total_target_weight s = weightSum s := by
    rw [calc_total_eq]
    exact Nat.min_eq_left (by unfold U32MAX; omega)
  have hws2 : weightSum
      { s with holdings := updMap s.holdings tid (Option.some
          { holding with amount := amt, target_weight_bp := w, last_rebalance := now }) }
        + holding.target_weight_bp =
      weightSum s + w := hsum2
  have hold_le : holding.target_weight_bp ≤ weightSum s := by
    have h1 : weightSum s = (s.held_token_ids.map (holdingWeight s.holdings)).sum := rfl
    have h2 : holdingWeight s.holdings tid = holding.target_weight_bp := by
      unfold holdingWeight
      rw [hsome]
    rw [h1, ← h2]
    exact List.le_sum_of_mem (List.mem_map.mpr ⟨tid, hmem, rfl⟩)
  have hother : ∀ id, id ≠ tid → updMap s.holdings tid (Option.some
      { holding with amount := amt, target_weight_bp := w, last_rebalance := now }) id
      = s.holdings id :=
    fun id hid => updMap_other _ _ _ _ hid
  have hdom2 : ∀ id, id ∈ s.held_token_ids ↔
      (updMap s.holdings tid (Option.some
        { holding with amount := amt, target_weight_bp := w, last_rebalance := now }) id).isSome := by
    intro id
    by_cases hid : id = tid
    · subst hid
      simp [updMap_same, hmem]
    · rw [hother id hid]
      exact hdom id
  have hfin : ∀ oldh, s.holdings tid = Option.some oldh →
      weightSum { s with holdings := updMap s.holdings tid (Option.some
          { holding with amount := amt, target_weight_bp := w, last_rebalance := now }) }
        + oldh.target_weight_bp =
        weightSum s + w := by
    intro oldh hold
    rw [hold] at hsome
    injection hsome with hsome
    subst hsome
    exact hws2
  by_cases hge : holding.target_weight_bp ≤ w
  · simp only [if_pos hge] at hok
    split at hok
    · exact absurd hok (by simp)
    next hchk =>
    injection hok with hok
    subst hok
    have hb : weightSum { s with holdings := updMap s.holdings tid (Option.some
        { holding with amount := amt, target_weight_bp := w, last_rebalance := now }) }
        ≤ 10000 := by
      rw [hcalc] at hchk
      push_neg at hchk
      unfold satAdd32 at hchk
      rcases Nat.le_total (weightSum s + (w - holding.target_weight_bp)) U32MAX with hc | hc
      · rw [Nat.min_eq_left hc] at hchk
        omega
      · rw [Nat.min_eq_right hc] at hchk
        unfold U32MAX at hchk
        omega
    exact ⟨⟨hnd, hdom2, hb⟩, hfin⟩
  · simp only [if_neg hge] at hok
    split at hok
    · exact absurd hok (by simp)
    next hchk =>
    injection hok with hok
    subst hok
    have hb : weightSum { s with holdings := updMap s.holdings tid (Option.some
        { holding with amount := amt, target_weight_bp := w, last_rebalance := now }) }
        ≤ 10000 := by
      rw [hcalc] at hchk
      push_neg at hchk
      omega
    exact ⟨⟨hnd, hdom2, hb⟩, hfin⟩

theorem remove_holding_preserves_inv (tid : Nat) (s s2 : PortfolioState)
    (hinv : PortfolioInv s)
    (hok : remove_token_holding tid s = Except.ok s2) :
    PortfolioInv s2 ∧ weightSum s2 ≤ weightSum s := by
  obtain ⟨hnd, hdom, hws⟩ := hinv
  unfold remove_token_holding trigger_index_update at hok
  split at hok; · exact absurd hok (by simp)
  split at hok
  · exact absurd hok (by simp)
  next holding hsome =>
  injection hok with hok
  subst hok
  have hsub : weightSum
      { s with
        holdings := updMap s.holdings tid Option.none,
        held_token_ids := s.held_token_ids.erase tid,
        total_tokens_held := s.total_tokens_held - 1 } ≤ weightSum s := by
    unfold weightSum
    rw [show ((s.held_token_ids.erase tid).map
        (holdingWeight (updMap s.holdings tid Option.none))) =
        ((s.held_token_ids.erase tid).map (holdingWeight s.holdings)) from
      map_holdingWeight_congr _ _ _ (fun x hx =>
        updMap_other _ _ _ _ ((List.Nodup.mem_erase_iff hnd).mp hx).1)]
    exact List.Sublist.sum_le_sum
      (List.Sublist.map _ (List.erase_sublist tid s.held_token_ids))
      (fun _ _ => Nat.zero_le _)
  refine ⟨⟨hnd.erase tid, ?_, Nat.le_trans hsub hws⟩, hsub⟩
  intro id
  dsimp only
  by_cases hid : id = tid
  · subst hid
    simp [List.Nodup.mem_erase_iff hnd, updMap_same]
  · rw [show updMap s.holdings tid Option.none id = s.holdings id from
      updMap_other _ _ _ _ hid]
    rw [List.Nodup.mem_erase_iff hnd]
    simp only [hid, ne_eq, not_false_iff, true_and]
    exact hdom id

theorem uma_fold_held (now : Nat) (l : List (Nat × Nat))
    (acc : Nat × PortfolioState) :
    (l.foldl (uma_step now) acc).2.held_token_ids = acc.2.held_token_ids := by
  induction l generalizing acc with
  | nil => rfl
  | cons e rest ih =>
    rw [List.foldl_cons, ih]
    unfold uma_step
    cases h : acc.2.holdings e.1 <;> rfl

theorem uma_fold_weight (now : Nat) (l : List (Nat × Nat))
    (acc : Nat × PortfolioState) (j : Nat) :
    holdingWeight (l.foldl (uma_step now) acc).2.holdings j =
      holdingWeight acc.2.holdings j := by
  induction l generalizing acc with
  | nil => rfl
  | cons e rest ih =>
    rw [List.foldl_cons, ih]
    unfold uma_step
    cases h : acc.2.holdings e.1 with
    | some holding =>
      by_cases hj : j = e.1
      · subst hj
        unfold holdingWeight
        simp only
        rw [updMap_same, h]
      · unfold holdingWeight
        simp only
        rw [updMap_other _ _ _ _ hj]
    | none => rfl

theorem uma_preserves_inv (now : Nat) (ups : List (Nat × Nat))
    (s : PortfolioState) (r : Nat × PortfolioState) (hinv : PortfolioInv s)
    (hok : update_multiple_amounts now ups s = Except.ok r) :
    PortfolioInv r.2 ∧ weightSum r.2 = weightSum s := by
  obtain ⟨hnd, hdom, hws⟩ := hinv
  unfold update_multiple_amounts at hok
  split at hok; · exact absurd hok (by simp)
  split at hok; · exact absurd hok (by simp)
  injection hok with hok
  subst hok
  have hheld := uma_fold_held now ups (0, s)
  have hwsum : weightSum (ups.foldl (uma_step now) (0, s)).2 = weightSum s := by
    unfold weightSum
    rw [hheld]
    congr 1
    exact List.map_congr_left (fun x _ => uma_fold_weight now ups (0, s) x)
  refine ⟨⟨by rw [hheld]; exact hnd, fun id => ?_, by rw [hwsum]; exact hws⟩, hwsum⟩
  rw [hheld, uma_fold_isSome now ups (0, s) id]
  exact hdom id

/-- States reachable from the constructor state through successful
single-holding operations (and batch amount updates, which do not touch
weights). -/
inductive PortfolioReach : PortfolioState → Prop where
  | init : PortfolioReach portfolioInit
  | add (s : PortfolioState) (now tid amt w : Nat) (s2 : PortfolioState) :
      PortfolioReach s → add_token_holding now tid amt w s = Except.ok s2 →
      PortfolioReach s2
  | update (s : PortfolioState) (now tid amt w : Nat) (s2 : PortfolioState) :
      PortfolioReach s → update_token_holding now tid amt w s = Except.ok s2 →
      PortfolioReach s2
  | remove (s : PortfolioState) (tid : Nat) (s2 : PortfolioState) :
      PortfolioReach s → remove_token_holding tid s = Except.ok s2 →
      PortfolioReach s2
  | updateAmounts (s : PortfolioState) (now : Nat) (ups : List (Nat × Nat))
      (r : Nat × PortfolioState) :
      PortfolioReach s → update_multiple_amounts now ups s = Except.ok r →
      PortfolioReach r.2

theorem portfolioReach_inv (s : PortfolioState) (h : PortfolioReach s) :
    PortfolioInv s := by
  induction h with
  | init => exact portfolioInit_inv
  | add s now tid amt w s2 _ hok ih =>
    exact (add_holding_preserves_inv now tid amt w s s2 ih hok).1
  | update s now tid amt w s2 _ hok ih =>
    exact (update_holding_preserves_inv now tid amt w s s2 ih hok).1
  | remove s tid s2 _ hok ih =>
    exact (remove_holding_preserves_inv tid s s2 ih hok).1
  | updateAmounts s now ups r _ hok ih =>
    exact (uma_preserves_inv now ups s r ih hok).1

/-- C7 counterexample: a single successful holdings operation can push the
stored total target weight above 10000.  From the constructor state,
`add_multiple_holdings` with the token id 1 repeated in one batch (weights
1 and 9999, both amounts nonzero, batch weight exactly 10000) succeeds and
leaves the contract's own stored total (`calculate_total_target_weight`,
which walks `held_token_ids` and now counts id 1 twice at weight 9999) at
19998 — the claim says no sequence of valid holdings operations can make
the stored total exceed 10000. -/
theorem c7_batch_duplicate_counterexample :
    (add_multiple_holdings 5 [(1, 10, 1), (1, 10, 9999)] portfolioInit).map
        (fun r => (r.1, calculate_total_target_weight r.2, weightSum r.2,
          r.2.held_token_ids))
      = Except.ok (2, 19998, 19998, [1, 1]) := by
  rfl

/-- C7 amended: restricted to the single-holding operations the claim names
(`add_token_holding`, `update_token_holding`, `remove_token_holding`, and
amount-only batch updates) the invariant holds: every reachable state keeps
the stored total target weight at most 10000; an add or update that would
push the exact total above 10000 is rejected with an error rather than
saturated, and a successful add changes the exact total by exactly the new
weight.  (`add_multiple_holdings` with a duplicated id inside one batch can
break the bound — see the counterexample.) -/
theorem c7_weight_sum_invariant :
    (∀ s, PortfolioReach s →
      weightSum s ≤ 10000 ∧ calculate_total_target_weight s ≤ 10000) ∧
    (∀ s now tid amt w, PortfolioInv s → 10000 < weightSum s + w →
      ∀ s2, add_token_holding now tid amt w s ≠ Except.ok s2) ∧
    (∀ s now tid amt w holding, PortfolioInv s →
      s.holdings tid = Option.some holding →
      10000 + holding.target_weight_bp < weightSum s + w →
      ∀ s2, update_token_holding now tid amt w s ≠ Except.ok s2) ∧
    (∀ s now tid amt w s2, PortfolioInv s →
      add_token_holding now tid amt w s = Except.ok s2 →
      weightSum s2 = weightSum s + w) := by
  refine ⟨?_, ?_, ?_, ?_⟩
  · intro s hreach
    have hinv := portfolioReach_inv s hreach
    refine ⟨hinv.2.2, ?_⟩
    rw [calc_total_eq]
    exact Nat.le_trans (Nat.min_le_left _ _) hinv.2.2
  · intro s now tid amt w hinv hgt s2 hok
    have h := add_holding_preserves_inv now tid amt w s s2 hinv hok
    have hle := h.1.2.2
    have heq := h.2
    omega
  · intro s now tid amt w holding hinv hsome hgt s2 hok
    have h := update_holding_preserves_inv now tid amt w s s2 hinv hok
    have hle := h.1.2.2
    have heq := h.2 holding hsome
    omega
  · intro s now tid amt w s2 hinv hok
    exact (add_holding_preserves_inv now tid amt w s s2 hinv hok).2

/-- Portfolio state for the C7 witness: one holding of weight 8000. -/
def c7state : PortfolioState :=
  { holdings := fun id =>
      if id = 2 then
        Option.some { amount := 5, target_weight_bp := 8000, last_rebalance := 0,
                      fees_collected := 0 }
      else Option.none,
    held_token_ids := [2], total_tokens_held := 1, max_tokens := 50,
    emergency_paused := false }

theorem c7state_inv : PortfolioInv c7state := by
  refine ⟨by decide, fun id => ?_, by decide⟩
  by_cases hid : id = 2 <;> simp [c7state, hid]

/-- Witness for C7: the invariant at the constructor state, and a concrete
rejected add (weight 3000 on top of a stored total of 8000). -/
theorem c7_weight_sum_invariant_witness :
    (weightSum portfolioInit ≤ 10000 ∧
      calculate_total_target_weight portfolioInit ≤ 10000) ∧
    (∀ s2, add_token_holding 0 7 1 3000 c7state ≠ Except.ok s2) :=
  ⟨c7_weight_sum_invariant.1 portfolioInit PortfolioReach.init,
   c7_weight_sum_invariant.2.1 c7state 0 7 1 3000 c7state_inv (by decide)⟩

-- ===== Registry contract (registry/src/lib.rs) =====

/-- TierThresholds (registry/src/lib.rs lines 36-46), amounts in USD. -/
structure TierThresholds where
  tier1_market_cap_usd : Nat
  tier1_volume_usd : Nat
  tier2_market_cap_usd : Nat
  tier2_volume_usd : Nat
  tier3_market_cap_usd : Nat
  tier3_volume_usd : Nat
  tier4_market_cap_usd : Nat
  tier4_volume_usd : Nat
deriving DecidableEq, Repr

/-- Default tier thresholds (registry/src/lib.rs lines 48-68). -/
def tierThresholdsDefault : TierThresholds :=
  { tier1_market_cap_usd := 50000000, tier1_volume_usd := 5000000,
    tier2_market_cap_usd := 250000000, tier2_volume_usd := 25000000,
    tier3_market_cap_usd := 500000000, tier3_volume_usd := 50000000,
    tier4_market_cap_usd := 2000000000, tier4_volume_usd := 200000000 }

/-- EnhancedTokenData (registry/src/lib.rs lines 76-86). -/
structure EnhancedTokenData where
  token_contract : Nat
  oracle_contract : Nat
  balance : Nat
  weight_investment : Nat
  tier : Tier
  tier_change_timestamp : Option Nat
  pending_tier_change : Option Tier
deriving DecidableEq, Repr

/-- Registry storage (registry/src/lib.rs lines 104-132); the role mapping
and owner are authentication infrastructure and are elided. -/
structure RegistryState where
  tokens : Nat → Option EnhancedTokenData
  token_contract_to_id : Nat → Option Nat
  next_token_id : Nat
  active_tier : Tier
  tier_thresholds : TierThresholds
  tier_distribution : Tier → Nat
  last_tier_change : Option Nat
  grace_period_ms : Nat

/-- Environment of one registry call: block timestamp, the oracle
`get_market_cap`/`get_market_volume` pair per (token contract, oracle
contract) with `none` for a failed cross-call, and the
`get_usd_to_plancks_rate` result. -/
structure RegistryEnv where
  now : Nat
  market_data : Nat → Nat → Option (Nat × Nat)
  usd_rate : Option Nat

/-- Registry constant `MIN_TOKENS_FOR_TIER_SHIFT`. -/
def MIN_TOKENS_FOR_TIER_SHIFT : Nat := 5

/-- Registry constant `TIER_SHIFT_THRESHOLD_PERCENT`. -/
def TIER_SHIFT_THRESHOLD_PERCENT : Nat := 80

/-- Registry `get_token_count` (registry/src/lib.rs lines 1177-1180):
`next_token_id.saturating_sub(1)` — note this is never decremented by
`remove_token`. -/
def get_token_count (s : RegistryState) : Nat := s.next_token_id - 1

/-- Registry `increment_tier_count` (registry/src/lib.rs lines 1341-1345). -/
def increment_tier_count (s : RegistryState) (tier : Tier) : RegistryState :=
  { s with tier_distribution := fun t =>
      if t = tier then satAdd32 (s.tier_distribution tier) 1
      else s.tier_distribution t }

/-- Registry `decrement_tier_count` (registry/src/lib.rs lines 1348-1354):
does nothing at zero. -/
def decrement_tier_count (s : RegistryState) (tier : Tier) : RegistryState :=
  if 0 < s.tier_distribution tier then
    { s with tier_distribution := fun t =>
        if t = tier then s.tier_distribution tier - 1
        else s.tier_distribution t }
  else s

/-- Registry `calculate_tier_from_values` (registry/src/lib.rs lines
539-587): converts the USD thresholds to plancks with the oracle rate
(fallback 2_000_000_000 plancks per USD) and picks the highest tier whose
market-cap and volume thresholds are both met. -/
def calculate_tier_from_values (s : RegistryState) (usd_rate : Option Nat)
    (market_cap volume : Nat) : Tier :=
  let usd_to_plancks_rate := usd_rate.getD 2000000000
  let thresholds := s.tier_thresholds
  let tier4_market_cap_plancks := satMul128 thresholds.tier4_market_cap_usd usd_to_plancks_rate
  let tier4_volume_plancks := satMul128 thresholds.tier4_volume_usd usd_to_plancks_rate
  let tier3_market_cap_plancks := satMul128 thresholds.tier3_market_cap_usd usd_to_plancks_rate
  let tier3_volume_plancks := satMul128 thresholds.tier3_volume_usd usd_to_plancks_rate
  let tier2_market_cap_plancks := satMul128 thresholds.tier2_market_cap_usd usd_to_plancks_rate
  let tier2_volume_plancks := satMul128 thresholds.tier2_volume_usd usd_to_plancks_rate
  let tier1_market_cap_plancks := satMul128 thresholds.tier1_market_cap_usd usd_to_plancks_rate
  let tier1_volume_plancks := satMul128 thresholds.tier1_volume_usd usd_to_plancks_rate
  if tier4_market_cap_plancks ≤ market_cap ∧ tier4_volume_plancks ≤ volume then Tier.tier4
  else if tier3_market_cap_plancks ≤ market_cap ∧ tier3_volume_plancks ≤ volume then Tier.tier3
  else if tier2_market_cap_plancks ≤ market_cap ∧ tier2_volume_plancks ≤ volume then Tier.tier2
  else if tier1_market_cap_plancks ≤ market_cap ∧ tier1_volume_plancks ≤ volume then Tier.tier1
  else Tier.none

/-- Registry `calculate_token_tier_internal` (registry/src/lib.rs lines
525-536): `none` when the oracle cross-call fails. -/
def calculate_token_tier_internal (env : RegistryEnv) (s : RegistryState)
    (token_contract oracle_contract : Nat) : Option Tier :=
  (env.market_data token_contract oracle_contract).map
    (fun md => calculate_tier_from_values s env.usd_rate md.1 md.2)

/-- Registry `get_higher_tiers` (registry/src/lib.rs lines 1330-1338). -/
def get_higher_tiers_of : Tier → List Tier
  | Tier.none => [Tier.tier1, Tier.tier2, Tier.tier3, Tier.tier4]
  | Tier.tier1 => [Tier.tier2, Tier.tier3, Tier.tier4]
  | Tier.tier2 => [Tier.tier3, Tier.tier4]
  | Tier.tier3 => [Tier.tier4]
  | Tier.tier4 => []

/-- Registry `should_shift_tier` (registry/src/lib.rs lines 908-929):
None below 5 tokens; otherwise the first tier above the active tier whose
cached count reaches 80% of `get_token_count`, the u32 `checked_mul(100)`
guard skipping a tier on overflow. -/
def should_shift_tier (s : RegistryState) : Option Tier :=
  if get_token_count s < MIN_TOKENS_FOR_TIER_SHIFT then Option.none
  else
    (get_higher_tiers_of s.active_tier).find? (fun check_tier =>
      decide (s.tier_distribution check_tier * 100 ≤ U32MAX) &&
        decide (TIER_SHIFT_THRESHOLD_PERCENT ≤
          s.tier_distribution check_tier * 100 / get_token_count s))

/-- Registry `shift_active_tier` (registry/src/lib.rs lines 933-960) on the
automatic "80_percent_rule" path (the owner gate for other reasons is
authentication infrastructure): no-op when unchanged, otherwise records the
new active tier and the shift timestamp. -/
def shift_active_tier (now : Nat) (s : RegistryState) (new_tier : Tier) :
    RegistryState :=
  if s.active_tier = new_tier then s
  else { s with active_tier := new_tier, last_tier_change := Option.some now }

/-- Registry `check_and_execute_auto_tier_shift` (registry/src/lib.rs lines
963-967). -/
def check_and_execute_auto_tier_shift (now : Nat) (s : RegistryState) :
    RegistryState :=
  match should_shift_tier s with
  | Option.some new_tier => shift_active_tier now s new_tier
  | Option.none => s

/-- Reasons passed to `handle_tier_change` in the source. -/
inductive TierChangeReason where
  | manual_override
  | emergency
  | automatic
  | manual
  | scheduled
deriving DecidableEq, Repr

/-- Registry `handle_tier_change` (registry/src/lib.rs lines 1223-1277):
override/emergency reasons apply immediately and move the distribution
cache; every other reason only parks the pending change and stamps the
timestamp, leaving the applied tier and the cache untouched. -/
def handle_tier_change (env : RegistryEnv) (s : RegistryState)
    (token_data : EnhancedTokenData) (new_tier : Tier)
    (reason : TierChangeReason) : RegistryState × EnhancedTokenData :=
  if reason = TierChangeReason.manual_override ∨
      reason = TierChangeReason.emergency then
    let s1 := increment_tier_count (decrement_tier_count s token_data.tier) new_tier
    (s1, { token_data with
      tier := new_tier,
      tier_change_timestamp := Option.some env.now,
      pending_tier_change := Option.none })
  else
    (s, { token_data with
      pending_tier_change := Option.some new_tier,
      tier_change_timestamp := Option.some env.now })

/-- Registry `add_token` (registry/src/lib.rs lines 356-420). -/
def add_token (env : RegistryEnv) (token_contract oracle_contract : Nat)
    (s : RegistryState) : Except Error (Nat × RegistryState) :=
  if token_contract = 0 then Except.error Error.zeroAddress
  else if oracle_contract = 0 then Except.error Error.zeroAddress
  else if (s.token_contract_to_id token_contract).isSome then
    Except.error Error.tokenAlreadyExists
  else
    let token_id := s.next_token_id
    let initial_tier :=
      (calculate_token_tier_internal env s token_contract oracle_contract).getD
        Tier.none
    let enhanced_token_data : EnhancedTokenData :=
      { token_contract := token_contract, oracle_contract := oracle_contract,
        balance := 0, weight_investment := 0, tier := initial_tier,
        tier_change_timestamp := Option.none,
        pending_tier_change := Option.none }
    let s1 := { s with
      tokens := updMap s.tokens token_id (Option.some enhanced_token_data),
      token_contract_to_id :=
        updMap s.token_contract_to_id token_contract (Option.some token_id),
      next_token_id := satAdd32 s.next_token_id 1 }
    let s2 := increment_tier_count s1 initial_tier
    Except.ok (token_id, check_and_execute_auto_tier_shift env.now s2)

/-- Registry `update_token` (registry/src/lib.rs lines 424-475): validates
the weight, recalculates the tier (keeping the old one if the oracle call
fails), routes a differing tier through `handle_tier_change` with reason
"automatic", stores the token — and performs no automatic-shift check. -/
def update_token (env : RegistryEnv) (token_id balance weight_investment : Nat)
    (s : RegistryState) : Except Error RegistryState :=
  if 10000 < weight_investment then Except.error Error.invalidWeight
  else
    match s.tokens token_id with
    | Option.none => Except.error Error.tokenNotFound
    | Option.some token_data =>
      let old_tier := token_data.tier
      let td1 := { token_data with
        balance := balance, weight_investment := weight_investment }
      let new_tier :=
        (calculate_token_tier_internal env s td1.token_contract
          td1.oracle_contract).getD td1.tier
      let step :=
        if new_tier ≠ old_tier then
          handle_tier_change env s td1 new_tier TierChangeReason.automatic
        else (s, td1)
      Except.ok { step.1 with
        tokens := updMap step.1.tokens token_id (Option.some step.2) }

/-- Registry `remove_token` (registry/src/lib.rs lines 479-508): removes the
token from both mappings (leaving `next_token_id` untouched), decrements the
tier cache and runs the automatic-shift check. -/
def remove_token (env : RegistryEnv) (token_id : Nat) (s : RegistryState) :
    Except Error RegistryState :=
  match s.tokens token_id with
  | Option.none => Except.error Error.tokenNotFound
  | Option.some token_data =>
    let s1 := { s with
      tokens := updMap s.tokens token_id Option.none,
      token_contract_to_id :=
        updMap s.token_contract_to_id token_data.token_contract Option.none }
    let s2 := decrement_tier_count s1 token_data.tier
    Except.ok (check_and_execute_auto_tier_shift env.now s2)

/-- Loop body of `refresh_all_tiers` (registry/src/lib.rs lines 803-818). -/
def refresh_step (env : RegistryEnv) (acc : Nat × RegistryState) (token_id : Nat) :
    Nat × RegistryState :=
  match acc.2.tokens token_id with
  | Option.some token_data =>
    match calculate_token_tier_internal env acc.2 token_data.token_contract
        token_data.oracle_contract with
    | Option.some new_tier =>
      if new_tier ≠ token_data.tier then
        let step := handle_tier_change env acc.2 token_data new_tier
          TierChangeReason.scheduled
        (satAdd32 acc.1 1,
         { step.1 with tokens := updMap step.1.tokens token_id (Option.some step.2) })
      else acc
    | Option.none => acc
  | Option.none => acc

/-- Registry `refresh_all_tiers` (registry/src/lib.rs lines 797-824):
recalculates every token's tier (grace-delayed through `handle_tier_change`
with reason "scheduled") and then always runs the automatic-shift check. -/
def refresh_all_tiers (env : RegistryEnv) (s : RegistryState) :
    Nat × RegistryState :=
  let total_tokens := get_token_count s
  let r := (List.range' 1 total_tokens).foldl (refresh_step env) (0, s)
  (r.1, check_and_execute_auto_tier_shift env.now r.2)

/-- Loop body of `process_grace_periods` (registry/src/lib.rs lines
835-875): a token whose pending change has outlived the grace period gets
the pending tier applied, the cache moved, the pending slot cleared and the
timestamp re-stamped to now, and is counted. -/
def pgp_step (now : Nat) (acc : Nat × RegistryState) (token_id : Nat) :
    Nat × RegistryState :=
  match acc.2.tokens token_id with
  | Option.some token_data =>
    match token_data.pending_tier_change, token_data.tier_change_timestamp with
    | Option.some pending_tier, Option.some change_time =>
      if acc.2.grace_period_ms ≤ now - change_time then
        let st1 := increment_tier_count
          (decrement_tier_count acc.2 token_data.tier) pending_tier
        let td2 := { token_data with
          tier := pending_tier,
          pending_tier_change := Option.none,
          tier_change_timestamp := Option.some now }
        (satAdd32 acc.1 1,
         { st1 with tokens := updMap st1.tokens token_id (Option.some td2) })
      else acc
    | _, _ => acc
  | Option.none => acc

/-- Registry `process_grace_periods` (registry/src/lib.rs lines 828-883):
walks ids 1..get_token_count, applies expired pending changes, and runs the
automatic-shift check only when at least one token was processed. -/
def process_grace_periods (env : RegistryEnv) (s : RegistryState) :
    Nat × RegistryState :=
  let total_tokens := get_token_count s
  let r := (List.range' 1 total_tokens).foldl (pgp_step env.now) (0, s)
  if 0 < r.1 then (r.1, check_and_execute_auto_tier_shift env.now r.2) else r

/-- The five tiers in the order `get_tier_distribution` reports them. -/
def tierList : List Tier :=
  [Tier.none, Tier.tier1, Tier.tier2, Tier.tier3, Tier.tier4]

/-- Sum of the cached tier-distribution counts over the five tiers. -/
def distSum (s : RegistryState) : Nat :=
  (tierList.map (fun t => s.tier_distribution t)).sum

/-- Registry state produced by the constructor (registry/src/lib.rs lines
283-306). -/
def registryInit : RegistryState :=
  { tokens := fun _ => Option.none,
    token_contract_to_id := fun _ => Option.none,
    next_token_id := 1,
    active_tier := Tier.tier1,
    tier_thresholds := tierThresholdsDefault,
    tier_distribution := fun _ => 0,
    last_tier_change := Option.none,
    grace_period_ms := 7776000000 }

/-- Oracle-unavailable environment for the C1 evaluation (the tier of a new
token then defaults to Tier::None via `unwrap_or`). -/
def c1env : RegistryEnv :=
  { now := 0, market_data := fun _ _ => Option.none, usd_rate := Option.none }

/-- Result of add_token, add_token, remove_token(1) from a fresh registry. -/
def c1r : Except Error RegistryState :=
  match add_token c1env 10 20 registryInit with
  | Except.ok p =>
    match add_token c1env 11 20 p.2 with
    | Except.ok q => remove_token c1env 1 q.2
    | Except.error e => Except.error e
  | Except.error e => Except.error e

/-- C1: after add_token, add_token, remove_token(1) on a fresh registry the
cached tier-distribution counts sum to 1 (one token stored) while
`get_token_count()` still reports 2 — the claimed equality fails because
`remove_token` never decrements `next_token_id`, so `get_token_count`
(documented as the "total number of registered tokens") counts removed
tokens forever. -/
theorem c1_count_vs_distribution_mismatch :
    c1r.map (fun s3 => (distSum s3, get_token_count s3)) = Except.ok (1, 2) := by
  rfl

-- ===== C5: the 80% rule =====

/-- Specification-side reading of `should_shift_tier`, written from the
claim's words for comparison with the source definition: disabled below 5
tokens, otherwise the first tier strictly above the active tier (ascending)
whose cached count satisfies (count * 100) / total >= 80. -/
def spec_should_shift_tier (dist : Tier → Nat) (total : Nat) (active : Tier) :
    Option Tier :=
  if total < 5 then Option.none
  else (get_higher_tiers_of active).find? (fun t => decide (80 ≤ dist t * 100 / total))

theorem find?_and_left (l : List Tier) (p q : Tier → Bool)
    (h : ∀ t ∈ l, p t = true) :
    l.find? (fun t => p t && q t) = l.find? q := by
  induction l with
  | nil => rfl
  | cons a rest ih =>
    have hpa : p a = true := h a (List.mem_cons_self a rest)
    have ih2 := ih (fun t ht => h t (List.mem_cons_of_mem a ht))
    simp only [List.find?_cons, hpa, Bool.true_and]
    cases hq : q a <;> simp [hq, ih2]

theorem tier_mem_tierList (t : Tier) : t ∈ tierList := by
  cases t <;> simp [tierList]

/-- On states whose cached counts cannot overflow the u32 `checked_mul(100)`
guard, the source `should_shift_tier` computes exactly the specification
reading. -/
theorem should_shift_eq_spec (s : RegistryState)
    (hb : ∀ t ∈ tierList, s.tier_distribution t * 100 ≤ U32MAX) :
    should_shift_tier s =
      spec_should_shift_tier s.tier_distribution (get_token_count s)
        s.active_tier := by
  unfold should_shift_tier spec_should_shift_tier MIN_TOKENS_FOR_TIER_SHIFT
    TIER_SHIFT_THRESHOLD_PERCENT
  by_cases hlt : get_token_count s < 5
  · rw [if_pos hlt, if_pos hlt]
  · rw [if_neg hlt, if_neg hlt]
    apply find?_and_left
    intro t _
    exact decide_eq_true (hb t (tier_mem_tierList t))

/-- Registry state with 5 tokens counted, active tier Tier1, 4 of them
cached at Tier2 (should_shift_tier only reads the count, the active tier
and the distribution cache). -/
def c5stateA : RegistryState :=
  { registryInit with
    next_token_id := 6,
    active_tier := Tier.tier1,
    tier_distribution := fun t =>
      if t = Tier.tier2 then 4 else if t = Tier.tier1 then 1 else 0 }

/-- Same as c5stateA but with only 3 of the 5 tokens cached at Tier2. -/
def c5stateB : RegistryState :=
  { registryInit with
    next_token_id := 6,
    active_tier := Tier.tier1,
    tier_distribution := fun t =>
      if t = Tier.tier2 then 3 else if t = Tier.tier1 then 2 else 0 }

/-- C5: `should_shift_tier` returns None below 5 tokens; otherwise it equals
the specification scan (first higher tier, ascending, with
(count * 100) / total >= 80, None when no higher tier qualifies) whenever
the cached counts stay within the u32 `checked_mul(100)` guard; with 5
tokens, active Tier1 and 4 cached at Tier2 it returns Some(Tier2), and with
3 of 5 it returns None. -/
theorem c5_should_shift_tier_spec :
    (∀ s : RegistryState, get_token_count s < 5 →
      should_shift_tier s = Option.none) ∧
    (∀ s : RegistryState,
      (∀ t ∈ tierList, s.tier_distribution t * 100 ≤ U32MAX) →
      should_shift_tier s =
        spec_should_shift_tier s.tier_distribution (get_token_count s)
          s.active_tier) ∧
    should_shift_tier c5stateA = Option.some Tier.tier2 ∧
    should_shift_tier c5stateB = Option.none := by
  refine ⟨?_, ?_, by decide, by decide⟩
  · intro s h
    unfold should_shift_tier MIN_TOKENS_FOR_TIER_SHIFT
    rw [if_pos h]
  · intro s hb
    exact should_shift_eq_spec s hb

/-- Witness for C5: the below-5 clause at the fresh registry and the
specification equality at the concrete 5-token state. -/
theorem c5_should_shift_tier_spec_witness :
    should_shift_tier registryInit = Option.none ∧
      should_shift_tier c5stateA =
        spec_should_shift_tier c5stateA.tier_distribution
          (get_token_count c5stateA) c5stateA.active_tier :=
  ⟨c5_should_shift_tier_spec.1 registryInit (by decide),
   c5_should_shift_tier_spec.2.1 c5stateA (by decide)⟩

-- ===== C4: which mutations run the automatic shift check =====

/-- Specification-side active tier after the automatic 80%-rule check
(should_shift_tier followed by shift_active_tier), written from the claim's
words: the first qualifying higher tier if any, otherwise unchanged. -/
def spec_auto_shift (dist : Tier → Nat) (total : Nat) (active : Tier) : Tier :=
  (spec_should_shift_tier dist total active).getD active

theorem check_auto_preserves (now : Nat) (s : RegistryState) :
    (check_and_execute_auto_tier_shift now s).tier_distribution =
        s.tier_distribution ∧
      (check_and_execute_auto_tier_shift now s).next_token_id =
        s.next_token_id ∧
      (check_and_execute_auto_tier_shift now s).tokens = s.tokens ∧
      (check_and_execute_auto_tier_shift now s).grace_period_ms =
        s.grace_period_ms := by
  unfold check_and_execute_auto_tier_shift shift_active_tier
  cases should_shift_tier s with
  | none => exact ⟨rfl, rfl, rfl, rfl⟩
  | some t => refine ⟨?_, ?_, ?_, ?_⟩ <;> ((repeat' split) <;> rfl)

theorem check_auto_active (now : Nat) (s : RegistryState)
    (hb : ∀ t ∈ tierList, s.tier_distribution t * 100 ≤ U32MAX) :
    (check_and_execute_auto_tier_shift now s).active_tier =
      spec_auto_shift s.tier_distribution (get_token_count s) s.active_tier := by
  unfold check_and_execute_auto_tier_shift spec_auto_shift
  rw [should_shift_eq_spec s hb]
  cases h : spec_should_shift_tier s.tier_distribution (get_token_count s)
      s.active_tier with
  | none => rfl
  | some t =>
    show (shift_active_tier now s t).active_tier = (Option.some t).getD s.active_tier
    rw [Option.getD_some]
    unfold shift_active_tier
    split
    · next heq => exact heq
    · rfl

theorem spec_auto_shift_congr {d1 d2 : Tier → Nat} {t1 t2 : Nat} {a1 a2 : Tier}
    (hd : d1 = d2) (ht : t1 = t2) (ha : a1 = a2) :
    spec_auto_shift d1 t1 a1 = spec_auto_shift d2 t2 a2 := by
  rw [hd, ht, ha]

theorem handle_tier_change_grace_path (env : RegistryEnv) (st : RegistryState)
    (td : EnhancedTokenData) (nt : Tier) (r : TierChangeReason)
    (hr : r = TierChangeReason.automatic ∨ r = TierChangeReason.manual ∨
      r = TierChangeReason.scheduled) :
    (handle_tier_change env st td nt r).1 = st := by
  unfold handle_tier_change
  rcases hr with rfl | rfl | rfl <;> simp

theorem refresh_fold_preserves (env : RegistryEnv) (l : List Nat)
    (acc : Nat × RegistryState) :
    (l.foldl (refresh_step env) acc).2.active_tier = acc.2.active_tier ∧
      (l.foldl (refresh_step env) acc).2.tier_distribution =
        acc.2.tier_distribution ∧
      (l.foldl (refresh_step env) acc).2.next_token_id =
        acc.2.next_token_id := by
  induction l generalizing acc with
  | nil => exact ⟨rfl, rfl, rfl⟩
  | cons a rest ih =>
    rw [List.foldl_cons]
    refine (ih (refresh_step env acc a)).imp (fun h => h.trans ?_)
      (fun h => h.imp (fun h => h.trans ?_) (fun h => h.trans ?_)) <;>
      · unfold refresh_step
        repeat' split
        all_goals
          first
          | rfl
          | (rw [show (handle_tier_change env acc.2 _ _
                TierChangeReason.scheduled).1 = acc.2 from
              handle_tier_change_grace_path _ _ _ _ _ (by simp)])

theorem pgp_step_preserves (now : Nat) (acc : Nat × RegistryState) (a : Nat) :
    (pgp_step now acc a).2.active_tier = acc.2.active_tier ∧
      (pgp_step now acc a).2.next_token_id = acc.2.next_token_id ∧
      (pgp_step now acc a).2.grace_period_ms = acc.2.grace_period_ms := by
  unfold pgp_step increment_tier_count decrement_tier_count
  repeat' split
  all_goals exact ⟨rfl, rfl, rfl⟩

theorem pgp_fold_preserves (now : Nat) (l : List Nat)
    (acc : Nat × RegistryState) :
    (l.foldl (pgp_step now) acc).2.active_tier = acc.2.active_tier ∧
      (l.foldl (pgp_step now) acc).2.next_token_id = acc.2.next_token_id ∧
      (l.foldl (pgp_step now) acc).2.grace_period_ms =
        acc.2.grace_period_ms := by
  induction l generalizing acc with
  | nil => exact ⟨rfl, rfl, rfl⟩
  | cons a rest ih =>
    rw [List.foldl_cons]
    have hs := pgp_step_preserves now acc a
    have hi := ih (pgp_step now acc a)
    exact ⟨hi.1.trans hs.1, hi.2.1.trans hs.2.1, hi.2.2.trans hs.2.2⟩

/-- Token literal for the C4 state (oracle contract 201, empty balance). -/
def mkToken (tc : Nat) (tier : Tier) : EnhancedTokenData :=
  { token_contract := tc, oracle_contract := 201, balance := 0,
    weight_investment := 0, tier := tier,
    tier_change_timestamp := Option.none, pending_tier_change := Option.none }

/-- Registry with 5 tokens: token 1 at Tier1, tokens 2-5 at Tier2, active
tier Tier1 — the 80% condition for Tier2 already holds. -/
def c4state : RegistryState :=
  { tokens := fun id =>
      if id = 1 then Option.some (mkToken 101 Tier.tier1)
      else if id = 2 then Option.some (mkToken 102 Tier.tier2)
      else if id = 3 then Option.some (mkToken 103 Tier.tier2)
      else if id = 4 then Option.some (mkToken 104 Tier.tier2)
      else if id = 5 then Option.some (mkToken 105 Tier.tier2)
      else Option.none,
    token_contract_to_id := fun c =>
      if c = 101 then Option.some 1
      else if c = 102 then Option.some 2
      else if c = 103 then Option.some 3
      else if c = 104 then Option.some 4
      else if c = 105 then Option.some 5
      else Option.none,
    next_token_id := 6,
    active_tier := Tier.tier1,
    tier_thresholds := tierThresholdsDefault,
    tier_distribution := fun t =>
      if t = Tier.tier2 then 4 else if t = Tier.tier1 then 1 else 0,
    last_tier_change := Option.none,
    grace_period_ms := 3600000 }

/-- Environment in which token 1's oracle data recalculates to Tier2
(usd rate 1, market data exactly at the Tier2 thresholds). -/
def c4env : RegistryEnv :=
  { now := 50,
    market_data := fun tc oc =>
      if tc = 101 ∧ oc = 201 then Option.some (250000000, 25000000)
      else Option.none,
    usd_rate := Option.some 1 }

/-- C4 counterexample: an `update_token` call whose recalculated tier
(Tier2) differs from the stored tier (Tier1, pending change parked) leaves
the active tier at Tier1 even though the 80% check — had it been invoked —
would have shifted it to Tier2 (indeed `should_shift_tier` on the result
still returns Some(Tier2)): `update_token` never invokes the automatic
shift check. -/
theorem c4_update_token_no_shift_counterexample :
    (update_token c4env 1 7 500 c4state).map (fun s2 =>
      (s2.active_tier,
       spec_auto_shift s2.tier_distribution (get_token_count s2)
         c4state.active_tier,
       (s2.tokens 1).map (fun td => (td.tier, td.pending_tier_change)),
       should_shift_tier s2))
      = Except.ok (Tier.tier1, Tier.tier2,
          Option.some (Tier.tier1, Option.some Tier.tier2),
          Option.some Tier.tier2) := by
  rfl

/-- C4 amended: `add_token`, `remove_token` and `refresh_all_tiers` run the
automatic 80%-rule check after their own state change (the resulting active
tier is the specification shift applied to the resulting distribution and
the pre-call active tier, under the u32 guard bound); `process_grace_periods`
runs it only when it processed at least one token and leaves the active tier
untouched otherwise; and `update_token` never runs the check — its tier
changes only park a pending change, leaving the distribution cache and the
active tier unchanged. -/
theorem c4_auto_shift_coverage :
    (∀ env tc oc s id s2, add_token env tc oc s = Except.ok (id, s2) →
      (∀ t ∈ tierList, s2.tier_distribution t * 100 ≤ U32MAX) →
      s2.active_tier =
        spec_auto_shift s2.tier_distribution (get_token_count s2)
          s.active_tier) ∧
    (∀ env tid s s2, remove_token env tid s = Except.ok s2 →
      (∀ t ∈ tierList, s2.tier_distribution t * 100 ≤ U32MAX) →
      s2.active_tier =
        spec_auto_shift s2.tier_distribution (get_token_count s2)
          s.active_tier) ∧
    (∀ env s, (∀ t ∈ tierList, s.tier_distribution t * 100 ≤ U32MAX) →
      (refresh_all_tiers env s).2.active_tier =
        spec_auto_shift s.tier_distribution (get_token_count s)
          s.active_tier ∧
      (refresh_all_tiers env s).2.tier_distribution = s.tier_distribution) ∧
    (∀ env s, 0 < (process_grace_periods env s).1 →
      (∀ t ∈ tierList,
        (process_grace_periods env s).2.tier_distribution t * 100 ≤ U32MAX) →
      (process_grace_periods env s).2.active_tier =
        spec_auto_shift (process_grace_periods env s).2.tier_distribution
          (get_token_count s) s.active_tier) ∧
    (∀ env s, (process_grace_periods env s).1 = 0 →
      (process_grace_periods env s).2.active_tier = s.active_tier) ∧
    (∀ env tid bal w s s2, update_token env tid bal w s = Except.ok s2 →
      s2.active_tier = s.active_tier ∧
      s2.tier_distribution = s.tier_distribution) := by
  refine ⟨?_, ?_, ?_, ?_, ?_, ?_⟩
  · intro env tc oc s id s2 hok hb
    unfold add_token at hok
    split at hok; · exact absurd hok (by simp)
    split at hok; · exact absurd hok (by simp)
    split at hok; · exact absurd hok (by simp)
    dsimp only at hok
    injection hok with hok
    rw [Prod.mk.injEq] at hok
    obtain ⟨hid, hs2⟩ := hok
    subst hs2
    have hp := check_auto_preserves env.now (increment_tier_count
      { s with
        tokens := updMap s.tokens s.next_token_id (Option.some
          { token_contract := tc, oracle_contract := oc, balance := 0,
            weight_investment := 0,
            tier := (calculate_token_tier_internal env s tc oc).getD Tier.none,
            tier_change_timestamp := Option.none,
            pending_tier_change := Option.none }),
        token_contract_to_id :=
          updMap s.token_contract_to_id tc (Option.some s.next_token_id),
        next_token_id := satAdd32 s.next_token_id 1 }
      ((calculate_token_tier_internal env s tc oc).getD Tier.none))
    rw [hp.1]
    rw [show get_token_count (check_and_execute_auto_tier_shift env.now _) =
        get_token_count (increment_tier_count _ _) from by
      unfold get_token_count; rw [hp.2.1]]
    refine (check_auto_active env.now _ ?_)
    intro t ht
    have := hb t ht
    rw [hp.1] at this
    exact this
  · intro env tid s s2 hok hb
    unfold remove_token at hok
    split at hok; · exact absurd hok (by simp)
    next token_data hsome =>
    dsimp only at hok
    injection hok with hok
    subst hok
    have hp := check_auto_preserves env.now (decrement_tier_count
      { s with
        tokens := updMap s.tokens tid Option.none,
        token_contract_to_id :=
          updMap s.token_contract_to_id token_data.token_contract Option.none }
      token_data.tier)
    rw [hp.1]
    rw [show get_token_count (check_and_execute_auto_tier_shift env.now _) =
        get_token_count (decrement_tier_count _ _) from by
      unfold get_token_count; rw [hp.2.1]]
    have hactive : (decrement_tier_count
        { s with
          tokens := updMap s.tokens tid Option.none,
          token_contract_to_id :=
            updMap s.token_contract_to_id token_data.token_contract Option.none }
        token_data.tier).active_tier = s.active_tier := by
      unfold decrement_tier_count
      split <;> rfl
    rw [show spec_auto_shift _ (get_token_count (decrement_tier_count _ _))
          s.active_tier =
        spec_auto_shift _ (get_token_count (decrement_tier_count _ _))
          (decrement_tier_count
            { s with
              tokens := updMap s.tokens tid Option.none,
              token_contract_to_id := updMap s.token_contract_to_id
                token_data.token_contract Option.none }
            token_data.tier).active_tier from by rw [hactive]]
    refine check_auto_active env.now _ ?_
    intro t ht
    have := hb t ht
    rw [hp.1] at this
    exact this
  · intro env s hb
    unfold refresh_all_tiers
    dsimp only
    have hf := refresh_fold_preserves env
      (List.range' 1 (get_token_count s)) (0, s)
    have hp := check_auto_preserves env.now
      ((List.range' 1 (get_token_count s)).foldl (refresh_step env) (0, s)).2
    have hb2 : ∀ t ∈ tierList,
        ((List.range' 1 (get_token_count s)).foldl (refresh_step env)
          (0, s)).2.tier_distribution t * 100 ≤ U32MAX := by
      intro t ht
      rw [hf.2.1]
      exact hb t ht
    have hcnt : get_token_count ((List.range' 1 (get_token_count s)).foldl
        (refresh_step env) (0, s)).2 = get_token_count s :=
      congrArg (fun n => n - 1) hf.2.2
    refine ⟨(check_auto_active env.now _ hb2).trans
      (spec_auto_shift_congr hf.2.1 hcnt hf.1), ?_⟩
    rw [hp.1, hf.2.1]
  · intro env s hpos hb
    unfold process_grace_periods at hpos hb ⊢
    dsimp only at hpos hb ⊢
    have hf := pgp_fold_preserves env.now
      (List.range' 1 (get_token_count s)) (0, s)
    have hp := check_auto_preserves env.now
      ((List.range' 1 (get_token_count s)).foldl (pgp_step env.now) (0, s)).2
    by_cases hc : 0 < ((List.range' 1 (get_token_count s)).foldl
        (pgp_step env.now) (0, s)).1
    · rw [if_pos hc] at hb ⊢
      dsimp only at hb ⊢
      have hb2 : ∀ t ∈ tierList,
          ((List.range' 1 (get_token_count s)).foldl (pgp_step env.now)
            (0, s)).2.tier_distribution t * 100 ≤ U32MAX := by
        intro t ht
        have h1 := hb t ht
        rw [hp.1] at h1
        exact h1
      have hcnt : get_token_count ((List.range' 1 (get_token_count s)).foldl
          (pgp_step env.now) (0, s)).2 = get_token_count s :=
        congrArg (fun n => n - 1) hf.2.1
      exact (check_auto_active env.now _ hb2).trans
        (spec_auto_shift_congr hp.1.symm hcnt hf.1)
    · rw [if_neg hc] at hpos
      exact absurd hpos hc
  · intro env s h0
    unfold process_grace_periods at h0 ⊢
    dsimp only at h0 ⊢
    have hf := pgp_fold_preserves env.now
      (List.range' 1 (get_token_count s)) (0, s)
    by_cases hc : 0 < ((List.range' 1 (get_token_count s)).foldl
        (pgp_step env.now) (0, s)).1
    · rw [if_pos hc] at h0
      dsimp only at h0
      exact absurd h0 (by omega)
    · rw [if_neg hc]
      exact hf.1
  · intro env tid bal w s s2 hok
    unfold update_token at hok
    split at hok; · exact absurd hok (by simp)
    split at hok
    · exact absurd hok (by simp)
    next token_data hsome =>
    dsimp only at hok
    injection hok with hok
    subst hok
    split
    next hne =>
      rw [show (handle_tier_change env s
          { token_data with balance := bal, weight_investment := w } _
          TierChangeReason.automatic).1 = s from
        handle_tier_change_grace_path _ _ _ _ _ (Or.inl rfl)]
      exact ⟨rfl, rfl⟩
    next hne =>
      exact ⟨rfl, rfl⟩

/-- Witness for C4: the refresh clause at the concrete 5-token state (where
the check fires and shifts the active tier to Tier2) and the
zero-processed grace clause at the fresh registry. -/
theorem c4_auto_shift_coverage_witness :
    ((refresh_all_tiers c4env c4state).2.active_tier =
        spec_auto_shift c4state.tier_distribution (get_token_count c4state)
          c4state.active_tier ∧
      (refresh_all_tiers c4env c4state).2.tier_distribution =
        c4state.tier_distribution) ∧
    (process_grace_periods c1env registryInit).2.active_tier =
      registryInit.active_tier :=
  ⟨c4_auto_shift_coverage.2.2.1 c4env c4state (by decide),
   c4_auto_shift_coverage.2.2.2.2.1 c1env registryInit (by rfl)⟩

-- ===== C6: grace-period processing =====

/-- Loop condition of `process_grace_periods` for one token: it has a
pending tier change with a timestamp whose elapsed time (u64 saturating)
has reached the grace period. -/
def pending_expired (s : RegistryState) (now id : Nat) : Bool :=
  match s.tokens id with
  | Option.some td =>
    match td.pending_tier_change, td.tier_change_timestamp with
    | Option.some _, Option.some c => decide (s.grace_period_ms ≤ now - c)
    | _, _ => false
  | Option.none => false

theorem pgp_step_tokens_other (now : Nat) (acc : Nat × RegistryState)
    (a j : Nat) (hj : j ≠ a) :
    (pgp_step now acc a).2.tokens j = acc.2.tokens j := by
  unfold pgp_step increment_tier_count decrement_tier_count
  repeat' split
  all_goals first
    | rfl
    | (exact updMap_other _ _ _ _ hj)

theorem pgp_fold_tokens_other (now : Nat) (l : List Nat)
    (acc : Nat × RegistryState) (j : Nat) (hj : j ∉ l) :
    (l.foldl (pgp_step now) acc).2.tokens j = acc.2.tokens j := by
  induction l generalizing acc with
  | nil => rfl
  | cons a rest ih =>
    rw [List.mem_cons] at hj
    push_neg at hj
    rw [List.foldl_cons, ih _ hj.2]
    exact pgp_step_tokens_other now acc a j hj.1

theorem pgp_step_not_fired (now : Nat) (acc : Nat × RegistryState)
    (s : RegistryState) (a : Nat)
    (ha : acc.2.tokens a = s.tokens a)
    (hg : acc.2.grace_period_ms = s.grace_period_ms)
    (hfalse : pending_expired s now a = false) :
    pgp_step now acc a = acc := by
  unfold pending_expired at hfalse
  unfold pgp_step
  rw [ha, hg]
  cases htd : s.tokens a with
  | none => rfl
  | some td =>
    simp only [htd] at hfalse
    cases hp : td.pending_tier_change with
    | none =>
      simp only [hp]
    | some p =>
      cases hts : td.tier_change_timestamp with
      | none => simp only [hp, hts]
      | some c =>
        simp only [hp, hts] at hfalse
        simp only [hp, hts]
        rw [if_neg (by simpa using hfalse)]

theorem pgp_step_fired_count (now : Nat) (acc : Nat × RegistryState)
    (s : RegistryState) (a : Nat)
    (ha : acc.2.tokens a = s.tokens a)
    (hg : acc.2.grace_period_ms = s.grace_period_ms)
    (htrue : pending_expired s now a = true) :
    (pgp_step now acc a).1 = satAdd32 acc.1 1 := by
  unfold pending_expired at htrue
  unfold pgp_step
  rw [ha, hg]
  cases htd : s.tokens a with
  | none =>
    simp only [htd] at htrue
    exact Bool.noConfusion htrue
  | some td =>
    simp only [htd] at htrue
    cases hp : td.pending_tier_change with
    | none =>
      simp only [hp] at htrue
      exact Bool.noConfusion htrue
    | some p =>
      cases hts : td.tier_change_timestamp with
      | none =>
        simp only [hp, hts] at htrue
        exact Bool.noConfusion htrue
      | some c =>
        simp only [hp, hts] at htrue
        simp only [hp, hts]
        rw [if_pos (by simpa using htrue)]

theorem pgp_fold_token_char (now : Nat) (l : List Nat)
    (acc : Nat × RegistryState) (s : RegistryState) (id : Nat)
    (hnd : l.Nodup) (hmem : id ∈ l)
    (hacc : acc.2.tokens id = s.tokens id)
    (hg : acc.2.grace_period_ms = s.grace_period_ms) :
    (l.foldl (pgp_step now) acc).2.tokens id =
      (match s.tokens id with
       | Option.some td =>
         match td.pending_tier_change, td.tier_change_timestamp with
         | Option.some p, Option.some c =>
           if s.grace_period_ms ≤ now - c then
             Option.some { td with
               tier := p,
               pending_tier_change := Option.none,
               tier_change_timestamp := Option.some now }
           else Option.some td
         | _, _ => s.tokens id
       | Option.none => Option.none) := by
  induction l generalizing acc with
  | nil => cases hmem
  | cons a rest ih =>
    rw [List.nodup_cons] at hnd
    rw [List.foldl_cons]
    rcases List.mem_cons.mp hmem with heq | htail
    · subst heq
      have hrest : id ∉ rest := hnd.1
      rw [pgp_fold_tokens_other now rest _ id hrest]
      unfold pgp_step
      rw [hacc, hg]
      cases htd : s.tokens id with
      | none => exact hacc.trans htd
      | some td =>
        cases hp : td.pending_tier_change with
        | none =>
          simp only [hp]
          exact hacc.trans htd
        | some p =>
          cases hts : td.tier_change_timestamp with
          | none =>
            simp only [hp, hts]
            exact hacc.trans htd
          | some c =>
            simp only [hp, hts]
            by_cases hcond : s.grace_period_ms ≤ now - c
            · rw [if_pos hcond, if_pos hcond]
              exact updMap_same _ _ _
            · rw [if_neg hcond, if_neg hcond]
              exact hacc.trans htd
    · have hne : a ≠ id := by
        intro hc
        exact (hc ▸ hnd.1) htail
      have hstep : (pgp_step now acc a).2.tokens id = s.tokens id :=
        (pgp_step_tokens_other now acc a id (Ne.symm hne)).trans hacc
      exact ih _ hnd.2 htail hstep
        ((pgp_step_preserves now acc a).2.2.trans hg)

theorem pgp_fold_count_eq (now : Nat) (l : List Nat)
    (acc : Nat × RegistryState) (s : RegistryState)
    (hagree : ∀ j ∈ l, acc.2.tokens j = s.tokens j)
    (hg : acc.2.grace_period_ms = s.grace_period_ms)
    (hnd : l.Nodup)
    (hbound : acc.1 + l.countP (fun j => pending_expired s now j) ≤ U32MAX) :
    (l.foldl (pgp_step now) acc).1 =
      acc.1 + l.countP (fun j => pending_expired s now j) := by
  induction l generalizing acc with
  | nil => simp
  | cons a rest ih =>
    rw [List.nodup_cons] at hnd
    rw [List.foldl_cons]
    have ha := hagree a (List.mem_cons_self a rest)
    by_cases he : pending_expired s now a = true
    · have hcnt : (a :: rest).countP (fun j => pending_expired s now j) =
          rest.countP (fun j => pending_expired s now j) + 1 := by
        simp [List.countP_cons, he]
      have hfst : (pgp_step now acc a).1 = satAdd32 acc.1 1 :=
        pgp_step_fired_count now acc s a ha hg he
      have hsat : satAdd32 acc.1 1 = acc.1 + 1 := by
        unfold satAdd32
        rw [hcnt] at hbound
        exact Nat.min_eq_left (by omega)
      have hagree2 : ∀ j ∈ rest, (pgp_step now acc a).2.tokens j = s.tokens j := by
        intro j hj
        have hne : j ≠ a := fun hc => (hc ▸ hnd.1) hj
        exact (pgp_step_tokens_other now acc a j hne).trans (hagree j
          (List.mem_cons_of_mem a hj))
      have hg2 : (pgp_step now acc a).2.grace_period_ms = s.grace_period_ms :=
        (pgp_step_preserves now acc a).2.2.trans hg
      rw [ih _ hagree2 hg2 hnd.2 (by rw [hfst, hsat]; rw [hcnt] at hbound; omega)]
      rw [hfst, hsat, hcnt]
      omega
    · have he2 : pending_expired s now a = false := by
        cases h : pending_expired s now a
        · rfl
        · exact absurd h he
      have hstep : pgp_step now acc a = acc :=
        pgp_step_not_fired now acc s a ha hg he2
      have hcnt : (a :: rest).countP (fun j => pending_expired s now j) =
          rest.countP (fun j => pending_expired s now j) := by
        simp [List.countP_cons, he2]
      rw [hstep, ih _ (fun j hj => hagree j (List.mem_cons_of_mem a hj)) hg
        hnd.2 (by rw [hcnt] at hbound; exact hbound), hcnt]

theorem pgp_fold_no_expired (now : Nat) (l : List Nat)
    (acc : Nat × RegistryState)
    (hall : ∀ j ∈ l, pending_expired acc.2 now j = false) :
    l.foldl (pgp_step now) acc = acc := by
  induction l with
  | nil => rfl
  | cons a rest ih =>
    have hstep : pgp_step now acc a = acc :=
      pgp_step_not_fired now acc acc.2 a rfl rfl (hall a (List.mem_cons_self a rest))
    rw [List.foldl_cons, hstep]
    exact ih (fun j hj => hall j (List.mem_cons_of_mem a hj))

theorem pgp_result_preserves (env : RegistryEnv) (s : RegistryState) :
    (process_grace_periods env s).2.next_token_id = s.next_token_id ∧
      (process_grace_periods env s).2.grace_period_ms = s.grace_period_ms := by
  unfold process_grace_periods
  dsimp only
  have hf := pgp_fold_preserves env.now (List.range' 1 (get_token_count s)) (0, s)
  have hp := check_auto_preserves env.now
    ((List.range' 1 (get_token_count s)).foldl (pgp_step env.now) (0, s)).2
  by_cases hc : 0 < ((List.range' 1 (get_token_count s)).foldl
      (pgp_step env.now) (0, s)).1
  · rw [if_pos hc]
    exact ⟨hp.2.1.trans hf.2.1, hp.2.2.2.trans hf.2.2⟩
  · rw [if_neg hc]
    exact ⟨hf.2.1, hf.2.2⟩

theorem pgp_result_tokens (env : RegistryEnv) (s : RegistryState) (j : Nat) :
    (process_grace_periods env s).2.tokens j =
      ((List.range' 1 (get_token_count s)).foldl (pgp_step env.now)
        (0, s)).2.tokens j := by
  unfold process_grace_periods
  dsimp only
  have hp := check_auto_preserves env.now
    ((List.range' 1 (get_token_count s)).foldl (pgp_step env.now) (0, s)).2
  by_cases hc : 0 < ((List.range' 1 (get_token_count s)).foldl
      (pgp_step env.now) (0, s)).1
  · rw [if_pos hc]
    exact congrFun hp.2.2.1 j
  · rw [if_neg hc]

/-- A `process_grace_periods` call that finds no expired pending change
processes 0 tokens and returns the state unchanged. -/
theorem pgp_of_no_expired (env : RegistryEnv) (s : RegistryState)
    (hall : ∀ j ∈ List.range' 1 (get_token_count s),
      pending_expired s env.now j = false) :
    process_grace_periods env s = (0, s) := by
  unfold process_grace_periods
  dsimp only
  rw [pgp_fold_no_expired env.now _ (0, s) hall]
  rw [if_neg (by simp)]

/-- Registry with one token (id 1) whose pending change to Tier2 was parked
at time 100 under a 3_600_000 ms grace period. -/
def c6state : RegistryState :=
  { tokens := fun id =>
      if id = 1 then Option.some
        { token_contract := 110, oracle_contract := 201, balance := 0,
          weight_investment := 0, tier := Tier.tier1,
          tier_change_timestamp := Option.some 100,
          pending_tier_change := Option.some Tier.tier2 }
      else Option.none,
    token_contract_to_id := fun c =>
      if c = 110 then Option.some 1 else Option.none,
    next_token_id := 2,
    active_tier := Tier.tier1,
    tier_thresholds := tierThresholdsDefault,
    tier_distribution := fun t => if t = Tier.tier1 then 1 else 0,
    last_tier_change := Option.none,
    grace_period_ms := 3600000 }

/-- Call time change-time + T - 1 (one millisecond before expiry). -/
def c6envL : RegistryEnv :=
  { now := 3600099, market_data := fun _ _ => Option.none,
    usd_rate := Option.none }

/-- Call time change-time + T (exact expiry). -/
def c6envE : RegistryEnv :=
  { now := 3600100, market_data := fun _ _ => Option.none,
    usd_rate := Option.none }

/-- C6: `process_grace_periods` applies a token's pending change exactly
when `now - tier_change_timestamp >= grace_period_ms` (setting the applied
tier to the pending tier, clearing the pending slot and re-stamping the
timestamp to now, and leaving the token untouched otherwise); the returned
total counts exactly the expired tokens; on the concrete one-token state a
call at change-time + T - 1 changes nothing while a call at change-time + T
applies the change, moves the distribution cache from the old tier to the
new one and returns 1; and an immediately repeated call processes 0 tokens
and leaves all state unchanged. -/
theorem c6_process_grace_periods :
    (∀ env s id, id ∈ List.range' 1 (get_token_count s) →
      (process_grace_periods env s).2.tokens id =
        (match s.tokens id with
         | Option.some td =>
           match td.pending_tier_change, td.tier_change_timestamp with
           | Option.some p, Option.some c =>
             if s.grace_period_ms ≤ env.now - c then
               Option.some { td with
                 tier := p,
                 pending_tier_change := Option.none,
                 tier_change_timestamp := Option.some env.now }
             else Option.some td
           | _, _ => s.tokens id
         | Option.none => Option.none)) ∧
    (∀ env s, get_token_count s ≤ U32MAX →
      (process_grace_periods env s).1 =
        (List.range' 1 (get_token_count s)).countP
          (fun j => pending_expired s env.now j)) ∧
    process_grace_periods c6envL c6state = (0, c6state) ∧
    ((process_grace_periods c6envE c6state).1 = 1 ∧
      (process_grace_periods c6envE c6state).2.tokens 1 =
        Option.some
          { token_contract := 110, oracle_contract := 201, balance := 0,
            weight_investment := 0, tier := Tier.tier2,
            tier_change_timestamp := Option.some 3600100,
            pending_tier_change := Option.none } ∧
      (process_grace_periods c6envE c6state).2.tier_distribution Tier.tier1 = 0 ∧
      (process_grace_periods c6envE c6state).2.tier_distribution Tier.tier2 = 1) ∧
    (∀ env s, process_grace_periods env (process_grace_periods env s).2 =
      (0, (process_grace_periods env s).2)) := by
  refine ⟨?_, ?_, by rfl, ⟨by rfl, by rfl, by rfl, by rfl⟩, ?_⟩
  · intro env s id hmem
    rw [pgp_result_tokens env s id]
    exact pgp_fold_token_char env.now _ (0, s) s id
      (List.nodup_range' 1 _) hmem rfl rfl
  · intro env s hbound
    unfold process_grace_periods
    dsimp only
    have hcount := pgp_fold_count_eq env.now
      (List.range' 1 (get_token_count s)) (0, s) s (fun j _ => rfl) rfl
      (List.nodup_range' 1 _)
      (by
        have h1 := List.countP_le_length
          (fun j => pending_expired s env.now j)
          (l := List.range' 1 (get_token_count s))
        rw [List.length_range'] at h1
        omega)
    by_cases hc : 0 < ((List.range' 1 (get_token_count s)).foldl
        (pgp_step env.now) (0, s)).1
    · rw [if_pos hc]
      dsimp only
      rw [hcount]
      omega
    · rw [if_neg hc]
      rw [hcount]
      omega
  · intro env s
    have hnext := (pgp_result_preserves env s).1
    have hgr := (pgp_result_preserves env s).2
    have hcnt : get_token_count (process_grace_periods env s).2 =
        get_token_count s := congrArg (fun n => n - 1) hnext
    apply pgp_of_no_expired
    intro j hj
    rw [hcnt] at hj
    have hchar := pgp_fold_token_char env.now
      (List.range' 1 (get_token_count s)) (0, s) s j
      (List.nodup_range' 1 _) hj rfl rfl
    have htok := (pgp_result_tokens env s j).trans hchar
    unfold pending_expired
    rw [htok]
    cases htd : s.tokens j with
    | none => rfl
    | some td =>
      cases hp : td.pending_tier_change with
      | none => simp only [hp]
      | some p =>
        cases hts : td.tier_change_timestamp with
        | none => simp only [hp, hts]
        | some c =>
          simp only [hp, hts]
          by_cases hcond : s.grace_period_ms ≤ env.now - c
          · rw [if_pos hcond]
          · rw [if_neg hcond]
            simp only [hp, hts, hgr]
            simpa using hcond

/-- Witness for C6: the per-token characterization and the processed count
at the concrete expired state. -/
theorem c6_process_grace_periods_witness :
    (process_grace_periods c6envE c6state).2.tokens 1 =
      (match c6state.tokens 1 with
       | Option.some td =>
         match td.pending_tier_change, td.tier_change_timestamp with
         | Option.some p, Option.some c =>
           if c6state.grace_period_ms ≤ c6envE.now - c then
             Option.some { td with
               tier := p,
               pending_tier_change := Option.none,
               tier_change_timestamp := Option.some c6envE.now }
           else Option.some td
         | _, _ => c6state.tokens 1
       | Option.none => Option.none) ∧
    (process_grace_periods c6envE c6state).1 =
      (List.range' 1 (get_token_count c6state)).countP
        (fun j => pending_expired c6state c6envE.now j) :=
  ⟨c6_process_grace_periods.1 c6envE c6state 1 (by decide),
   c6_process_grace_periods.2.1 c6envE c6state (by decide)⟩

end VRCI
